import Mathlib

/-! G1 root closures (`gc/g1/g1RootClosures.cpp`).

A shallow embedding of the closure holder `G1SharedClosures<Mark>`, the two
concrete root closure sets `G1EvacuationClosures` and
`G1InitalMarkClosures<MarkWeak>`, and the factory
`G1EvacuationRootClosures::create_root_closures`.

Pointers are modelled as optional addresses (`none` is `NULL`).  An address
names a member sub-object of the closure set: the holder member it lives in
(`_closures`, `_strong` or `_weak`) and the member of the holder.  Two
pointers denote the identical object exactly when they are equal.

Times are values of the C++ type `double`: `closure_app_seconds()` returns a
`Double`, and the sum it forms is the binary64 sum, rounded to nearest with
ties to even and overflowing to an infinity.
-/

namespace G1RootClosures

/-! ## Template parameters and addresses -/

/-- The `G1Mark` template parameter of the copy closures and of the holder. -/
inductive G1Mark where
  | G1MarkNone
  | G1MarkFromRoot
  | G1MarkPromotedFromRoot
  deriving DecidableEq, Repr

/-- The `G1Barrier` template parameter of `G1ParCopyClosure`, as far as this
file instantiates it. -/
inductive G1Barrier where
  | G1BarrierNone
  | G1BarrierKlass
  deriving DecidableEq, Repr

/-- The data members of type `G1SharedClosures<...>` declared in this file:
`G1EvacuationClosures::_closures`, `G1InitalMarkClosures::_strong` and
`G1InitalMarkClosures::_weak`. -/
inductive Holder where
  | _closures
  | _strong
  | _weak
  deriving DecidableEq, Repr

/-- The data members of `G1SharedClosures`. -/
inductive Member where
  | _oops
  | _oop_in_klass
  | _klass_in_cld_closure
  | _clds
  | _codeblobs
  | _buffered_oops
  deriving DecidableEq, Repr

/-- The address `&holder.member` of a member sub-object of a closure set. -/
structure Addr where
  holder : Holder
  member : Member
  deriving DecidableEq, Repr

/-- A C++ pointer to a closure: `none` is `NULL`. -/
abbrev Ptr := Option Addr

/-- A reference to a heap object, as handed to `do_oop`. -/
abbrev Oop := Nat

/-! ## The C++ type `double` -/

/-- A value of the C++ type `double` (IEEE 754 binary64): a finite value, an
infinity or a NaN.  A finite value is given by the rational it denotes; the
two zeros are not told apart. -/
inductive Double where
  | finite (q : ℚ)
  | pos_inf
  | neg_inf
  | nan
  deriving DecidableEq, Repr

instance : OfNat Double 0 := ⟨Double.finite 0⟩

/-- The comparison `x <= y` of two doubles: false as soon as one is a NaN. -/
def Double.le : Double → Double → Prop
  | Double.nan, _ => False
  | _, Double.nan => False
  | Double.neg_inf, _ => True
  | _, Double.pos_inf => True
  | Double.finite a, Double.finite b => a ≤ b
  | _, _ => False

instance : LE Double := ⟨Double.le⟩

instance (x y : Double) : Decidable (x ≤ y) := by
  show Decidable (Double.le x y)
  cases x <;> cases y <;> unfold Double.le <;> infer_instance

/-- Rounding to the nearest integer, a tie going to the even one. -/
def round_half_even (x : ℚ) : ℤ :=
  if x - ⌊x⌋ < 1 / 2 then ⌊x⌋
  else if 1 / 2 < x - ⌊x⌋ then ⌊x⌋ + 1
  else if ⌊x⌋ % 2 = 0 then ⌊x⌋
  else ⌊x⌋ + 1

/-- The binary64 exponent of the binade `q` lies in: `⌊log₂ |q|⌋`, and `-1022`
for the subnormal range (and for zero). -/
def binary64_exponent (q : ℚ) : ℤ := max (Int.log 2 |q|) (-1022)

/-- The spacing of the binary64 values in the binade of `q`: 52 fraction bits
below the exponent. -/
def binary64_ulp (q : ℚ) : ℚ := 2 ^ (binary64_exponent q - 52)

/-- The multiple of the spacing nearest to `q`, a tie going to the even
significand; the exponent is not bounded above here. -/
def binary64_round (q : ℚ) : ℚ := round_half_even (q / binary64_ulp q) * binary64_ulp q

/-- The double an exact result `q` is delivered as, in the default rounding
mode: the nearest binary64 value, or an infinity when that rounded value
reaches `2 ^ 1024` in magnitude. -/
def round_to_double (q : ℚ) : Double :=
  if 2 ^ 1024 ≤ binary64_round q then Double.pos_inf
  else if binary64_round q ≤ -2 ^ 1024 then Double.neg_inf
  else Double.finite (binary64_round q)

/-- The sum `x + y` of two doubles. -/
def Double.add : Double → Double → Double
  | Double.nan, _ => Double.nan
  | _, Double.nan => Double.nan
  | Double.pos_inf, Double.neg_inf => Double.nan
  | Double.neg_inf, Double.pos_inf => Double.nan
  | Double.pos_inf, _ => Double.pos_inf
  | _, Double.pos_inf => Double.pos_inf
  | Double.neg_inf, _ => Double.neg_inf
  | _, Double.neg_inf => Double.neg_inf
  | Double.finite a, Double.finite b => round_to_double (a + b)

instance : Add Double := ⟨Double.add⟩

/-! ## External collaborators -/

/-- Modelled from the spec: the collector state behind
`g1h->collector_state()`, of which the factory reads the two pause-context
flags `during_initial_mark_pause()` and `gcs_are_young()`. -/
structure G1CollectorState where
  during_initial_mark_pause : Bool
  gcs_are_young : Bool
  deriving DecidableEq, Repr

/-- Modelled from the spec: the heap handle `G1CollectedHeap*`; only its
collector state is examined here. -/
structure G1CollectedHeap where
  collector_state : G1CollectorState
  deriving DecidableEq, Repr

/-- Modelled from the spec: the per-worker scan state `G1ParScanThreadState*`,
passed through unexamined to the oop visitor constructors. -/
structure G1ParScanThreadState where
  worker_id : Nat
  deriving DecidableEq, Repr

/-- Modelled from the spec: the oop visitor `G1ParCopyClosure<barrier, mark>`
built from `(g1h, pss)`.  What it does with an oop is outside this file; it is
observed as a counting downstream visitor that records every oop it
receives. -/
structure G1ParCopyClosure (barrier : G1Barrier) (Mark : G1Mark) where
  _g1 : G1CollectedHeap
  _par_scan_state : G1ParScanThreadState
  received : List Oop
  deriving DecidableEq, Repr

/-- Constructor `G1ParCopyClosure(g1h, pss)`: nothing received yet. -/
def G1ParCopyClosure.new (barrier : G1Barrier) (Mark : G1Mark)
    (g1h : G1CollectedHeap) (pss : G1ParScanThreadState) :
    G1ParCopyClosure barrier Mark :=
  { _g1 := g1h, _par_scan_state := pss, received := [] }

/-- Modelled from the spec: `do_oop(p)` on the counting downstream visitor
records `p`. -/
def G1ParCopyClosure.do_oop {barrier : G1Barrier} {Mark : G1Mark}
    (c : G1ParCopyClosure barrier Mark) (p : Oop) : G1ParCopyClosure barrier Mark :=
  { c with received := c.received ++ [p] }

/-- Modelled from the spec: the metadata visitor
`G1KlassScanClosure(closure, process_only_dirty)`. -/
structure G1KlassScanClosure where
  _closure : Ptr
  _process_only_dirty : Bool
  deriving DecidableEq, Repr

/-- Modelled from the spec: the class-loader-data visitor
`CLDToKlassAndOopClosure(klass_closure, oop_closure, must_claim_cld)`. -/
structure CLDToKlassAndOopClosure where
  _klass_closure : Ptr
  _oop_closure : Ptr
  _must_claim_cld : Bool
  deriving DecidableEq, Repr

/-- Modelled from the spec: the code-blob visitor `G1CodeBlobClosure(oc)`,
wrapping an oop visitor. -/
structure G1CodeBlobClosure where
  _oc : Ptr
  deriving DecidableEq, Repr

/-- Modelled from the spec: the buffering wrapper `BufferingOopClosure(oc)`
around a downstream oop visitor: a pending batch of oops not yet forwarded and
an elapsed-time counter (an exact rational). -/
structure BufferingOopClosure where
  _oc : Ptr
  _buffer : List Oop
  _closure_app_seconds : ℚ
  deriving DecidableEq, Repr

/-- Constructor `BufferingOopClosure(oc)`: empty batch, no time spent. -/
def BufferingOopClosure.new (oc : Ptr) : BufferingOopClosure :=
  { _oc := oc, _buffer := [], _closure_app_seconds := 0 }

/-- Modelled from the spec: `BufferingOopClosure::do_oop(p)` batches the
reference instead of forwarding it. -/
def BufferingOopClosure.do_oop (w : BufferingOopClosure) (p : Oop) : BufferingOopClosure :=
  { w with _buffer := w._buffer ++ [p] }

/-- Getter `BufferingOopClosure::closure_app_seconds()`: the value of the
counter, returned as a finite `double`.  (The modelled counter itself
accumulates the forwarding times exactly.) -/
def BufferingOopClosure.closure_app_seconds (w : BufferingOopClosure) : Double :=
  Double.finite w._closure_app_seconds

/-- Modelled from the spec: the part of `BufferingOopClosure::done()` that
acts on the wrapper itself once its batch has been forwarded: the batch is
emptied and the wall time `dt` spent forwarding is added to the counter. -/
def BufferingOopClosure.batch_done (w : BufferingOopClosure) (dt : ℚ) : BufferingOopClosure :=
  { w with _buffer := [], _closure_app_seconds := w._closure_app_seconds + dt }

/-- Modelled from the spec: the forwarding loop of
`BufferingOopClosure::done()`: every oop of the pending batch is handed to the
downstream visitor `_oc`, in the order recorded.  `call s q p` performs
`q->do_oop(p)` in the object memory `s` the wrapper lives in. -/
def BufferingOopClosure.process_buffer {σ : Type} (call : σ → Ptr → Oop → Option σ)
    (w : BufferingOopClosure) (s : σ) : Option σ :=
  w._buffer.foldlM (fun t p => call t w._oc p) s

/-! ## `G1SharedClosures<Mark>` -/

/-- Holder object for a complete set of closures, `G1SharedClosures<Mark>`. -/
structure G1SharedClosures (Mark : G1Mark) where
  _oops : G1ParCopyClosure G1Barrier.G1BarrierNone Mark
  _oop_in_klass : G1ParCopyClosure G1Barrier.G1BarrierKlass Mark
  _klass_in_cld_closure : G1KlassScanClosure
  _clds : CLDToKlassAndOopClosure
  _codeblobs : G1CodeBlobClosure
  _buffered_oops : BufferingOopClosure
  deriving DecidableEq, Repr

/-- Constructor
`G1SharedClosures(g1h, pss, process_only_dirty_klasses, must_claim_cld)`.
`self` is the location of the object under construction, so that `&_oops` is
the address `⟨self, _oops⟩`. -/
def G1SharedClosures.new (Mark : G1Mark) (self : Holder)
    (g1h : G1CollectedHeap) (pss : G1ParScanThreadState)
    (process_only_dirty_klasses must_claim_cld : Bool) : G1SharedClosures Mark :=
  { _oops := G1ParCopyClosure.new G1Barrier.G1BarrierNone Mark g1h pss
    _oop_in_klass := G1ParCopyClosure.new G1Barrier.G1BarrierKlass Mark g1h pss
    _klass_in_cld_closure :=
      { _closure := some ⟨self, Member._oop_in_klass⟩
        _process_only_dirty := process_only_dirty_klasses }
    _clds :=
      { _klass_closure := some ⟨self, Member._klass_in_cld_closure⟩
        _oop_closure := some ⟨self, Member._oops⟩
        _must_claim_cld := must_claim_cld }
    _codeblobs := { _oc := some ⟨self, Member._oops⟩ }
    _buffered_oops := BufferingOopClosure.new (some ⟨self, Member._oops⟩) }

/-- The template argument a holder was instantiated with. -/
def G1SharedClosures.mark {Mark : G1Mark} (_b : G1SharedClosures Mark) : G1Mark := Mark

/-- Virtual `do_oop(p)` on the member `m` of a holder: defined for the three
members that are oop closures. -/
def G1SharedClosures.do_oop {Mark : G1Mark} (b : G1SharedClosures Mark)
    (m : Member) (p : Oop) : Option (G1SharedClosures Mark) :=
  match m with
  | Member._oops => some { b with _oops := b._oops.do_oop p }
  | Member._oop_in_klass => some { b with _oop_in_klass := b._oop_in_klass.do_oop p }
  | Member._buffered_oops => some { b with _buffered_oops := b._buffered_oops.do_oop p }
  | _ => none

/-- The holder after its oop visitor `_oops` has received the oops `l`, all
else unchanged. -/
def G1SharedClosures.receive {Mark : G1Mark} (b : G1SharedClosures Mark) (l : List Oop) :
    G1SharedClosures Mark :=
  { b with _oops := { b._oops with received := b._oops.received ++ l } }

/-! ## `G1EvacuationClosures` -/

/-- Root closure set of an ordinary evacuation pause: one holder
`G1SharedClosures<G1MarkNone> _closures`. -/
structure G1EvacuationClosures where
  _closures : G1SharedClosures G1Mark.G1MarkNone
  deriving DecidableEq, Repr

namespace G1EvacuationClosures

/-- Constructor `G1EvacuationClosures(g1h, pss, gcs_are_young)`. -/
def new (g1h : G1CollectedHeap) (pss : G1ParScanThreadState) (gcs_are_young : Bool) :
    G1EvacuationClosures :=
  { _closures :=
      G1SharedClosures.new G1Mark.G1MarkNone Holder._closures g1h pss gcs_are_young false }

def weak_oops (_c : G1EvacuationClosures) : Ptr :=
  some ⟨Holder._closures, Member._buffered_oops⟩

def strong_oops (_c : G1EvacuationClosures) : Ptr :=
  some ⟨Holder._closures, Member._buffered_oops⟩

def weak_clds (_c : G1EvacuationClosures) : Ptr :=
  some ⟨Holder._closures, Member._clds⟩

def strong_clds (_c : G1EvacuationClosures) : Ptr :=
  some ⟨Holder._closures, Member._clds⟩

def thread_root_clds (_c : G1EvacuationClosures) : Ptr := none

def second_pass_weak_clds (_c : G1EvacuationClosures) : Ptr := none

def strong_codeblobs (_c : G1EvacuationClosures) : Ptr :=
  some ⟨Holder._closures, Member._codeblobs⟩

def weak_codeblobs (_c : G1EvacuationClosures) : Ptr :=
  some ⟨Holder._closures, Member._codeblobs⟩

/-- Dereference an oop-closure pointer inside this set and call `do_oop(p)` on
the object found there; `none` for `NULL`, for an address outside this set
and for a member that is no oop closure. -/
def do_oop_at (c : G1EvacuationClosures) (q : Ptr) (p : Oop) : Option G1EvacuationClosures :=
  match q with
  | some ⟨Holder._closures, m⟩ =>
      (c._closures.do_oop m p).map fun b => { c with _closures := b }
  | _ => none

/-- Modelled from the spec: the call `_closures._buffered_oops.done()`: the
pending batch is forwarded to the downstream visitor, then the batch is
emptied and the forwarding time `dt` is accounted. -/
def _closures_buffered_oops_done (c : G1EvacuationClosures) (dt : ℚ) :
    Option G1EvacuationClosures :=
  (c._closures._buffered_oops.process_buffer do_oop_at c).map
    fun (s : G1EvacuationClosures) =>
      { s with _closures :=
          { s._closures with _buffered_oops := s._closures._buffered_oops.batch_done dt } }

/-- Method `flush()`; `clock h` is the wall time the forwarding call of the
wrapper in holder `h` takes. -/
def flush (c : G1EvacuationClosures) (clock : Holder → ℚ) : Option G1EvacuationClosures :=
  c._closures_buffered_oops_done (clock Holder._closures)

def closure_app_seconds (c : G1EvacuationClosures) : Double :=
  c._closures._buffered_oops.closure_app_seconds

def raw_strong_oops (_c : G1EvacuationClosures) : Ptr :=
  some ⟨Holder._closures, Member._oops⟩

def trace_metadata (_c : G1EvacuationClosures) : Bool := false

end G1EvacuationClosures

/-! ## `G1InitalMarkClosures<MarkWeak>` -/

/-- Root closure set of an initial-mark pause: the holders
`G1SharedClosures<G1MarkFromRoot> _strong` and
`G1SharedClosures<MarkWeak> _weak`. -/
structure G1InitalMarkClosures (MarkWeak : G1Mark) where
  _strong : G1SharedClosures G1Mark.G1MarkFromRoot
  _weak : G1SharedClosures MarkWeak
  deriving DecidableEq, Repr

namespace G1InitalMarkClosures

variable {MarkWeak : G1Mark}

/-- Filter method `null_if<Mark>(t)` of `G1InitalMarkClosures<MarkWeak>`. -/
def null_if (MarkWeak : G1Mark) (Mark : G1Mark) (t : Ptr) : Ptr :=
  if Mark = MarkWeak then none else t

/-- Constructor `G1InitalMarkClosures(g1h, pss)`. -/
def new (MarkWeak : G1Mark) (g1h : G1CollectedHeap) (pss : G1ParScanThreadState) :
    G1InitalMarkClosures MarkWeak :=
  { _strong := G1SharedClosures.new G1Mark.G1MarkFromRoot Holder._strong g1h pss false true
    _weak := G1SharedClosures.new MarkWeak Holder._weak g1h pss false true }

def weak_oops (_c : G1InitalMarkClosures MarkWeak) : Ptr :=
  some ⟨Holder._weak, Member._buffered_oops⟩

def strong_oops (_c : G1InitalMarkClosures MarkWeak) : Ptr :=
  some ⟨Holder._strong, Member._buffered_oops⟩

def weak_clds (_c : G1InitalMarkClosures MarkWeak) : Ptr :=
  null_if MarkWeak G1Mark.G1MarkPromotedFromRoot (some ⟨Holder._weak, Member._clds⟩)

def strong_clds (_c : G1InitalMarkClosures MarkWeak) : Ptr :=
  some ⟨Holder._strong, Member._clds⟩

def thread_root_clds (_c : G1InitalMarkClosures MarkWeak) : Ptr :=
  null_if MarkWeak G1Mark.G1MarkFromRoot (some ⟨Holder._strong, Member._clds⟩)

def second_pass_weak_clds (_c : G1InitalMarkClosures MarkWeak) : Ptr :=
  null_if MarkWeak G1Mark.G1MarkFromRoot (some ⟨Holder._weak, Member._clds⟩)

def strong_codeblobs (_c : G1InitalMarkClosures MarkWeak) : Ptr :=
  some ⟨Holder._strong, Member._codeblobs⟩

def weak_codeblobs (_c : G1InitalMarkClosures MarkWeak) : Ptr :=
  some ⟨Holder._weak, Member._codeblobs⟩

/-- Dereference an oop-closure pointer inside this set and call `do_oop(p)` on
the object found there; `none` for `NULL`, for an address outside this set
and for a member that is no oop closure. -/
def do_oop_at (c : G1InitalMarkClosures MarkWeak) (q : Ptr) (p : Oop) :
    Option (G1InitalMarkClosures MarkWeak) :=
  match q with
  | some ⟨Holder._strong, m⟩ => (c._strong.do_oop m p).map fun b => { c with _strong := b }
  | some ⟨Holder._weak, m⟩ => (c._weak.do_oop m p).map fun b => { c with _weak := b }
  | _ => none

/-- Modelled from the spec: the call `_strong._buffered_oops.done()`: the
pending batch is forwarded to the downstream visitor, then the batch is
emptied and the forwarding time `dt` is accounted. -/
def _strong_buffered_oops_done (c : G1InitalMarkClosures MarkWeak) (dt : ℚ) :
    Option (G1InitalMarkClosures MarkWeak) :=
  (c._strong._buffered_oops.process_buffer do_oop_at c).map
    fun (s : G1InitalMarkClosures MarkWeak) =>
      { s with _strong :=
          { s._strong with _buffered_oops := s._strong._buffered_oops.batch_done dt } }

/-- Modelled from the spec: the call `_weak._buffered_oops.done()`: the
pending batch is forwarded to the downstream visitor, then the batch is
emptied and the forwarding time `dt` is accounted. -/
def _weak_buffered_oops_done (c : G1InitalMarkClosures MarkWeak) (dt : ℚ) :
    Option (G1InitalMarkClosures MarkWeak) :=
  (c._weak._buffered_oops.process_buffer do_oop_at c).map
    fun (s : G1InitalMarkClosures MarkWeak) =>
      { s with _weak :=
          { s._weak with _buffered_oops := s._weak._buffered_oops.batch_done dt } }

/-- Method `flush()`: `done()` on the strong wrapper, then on the weak one. -/
def flush (c : G1InitalMarkClosures MarkWeak) (clock : Holder → ℚ) :
    Option (G1InitalMarkClosures MarkWeak) :=
  (c._strong_buffered_oops_done (clock Holder._strong)).bind fun s =>
    s._weak_buffered_oops_done (clock Holder._weak)

/-- Method `closure_app_seconds()`: the `double` sum of the two getters. -/
def closure_app_seconds (c : G1InitalMarkClosures MarkWeak) : Double :=
  c._strong._buffered_oops.closure_app_seconds +
    c._weak._buffered_oops.closure_app_seconds

def raw_strong_oops (_c : G1InitalMarkClosures MarkWeak) : Ptr :=
  some ⟨Holder._strong, Member._oops⟩

def trace_metadata (_c : G1InitalMarkClosures MarkWeak) : Bool :=
  decide (MarkWeak = G1Mark.G1MarkPromotedFromRoot)

end G1InitalMarkClosures

/-! ## The interface `G1EvacuationRootClosures` and its factory -/

/-- An object behind a `G1EvacuationRootClosures*`: its dynamic type is one of
the concrete classes of this file. -/
inductive G1EvacuationRootClosures where
  | ofEvacuation (c : G1EvacuationClosures)
  | ofInitialMark (MarkWeak : G1Mark) (c : G1InitalMarkClosures MarkWeak)
  deriving Repr

/-- The global flag `ClassUnloadingWithConcurrentMark` is passed explicitly. -/
def create_root_closures (ClassUnloadingWithConcurrentMark : Bool)
    (pss : G1ParScanThreadState) (g1h : G1CollectedHeap) : G1EvacuationRootClosures :=
  if g1h.collector_state.during_initial_mark_pause then
    if ClassUnloadingWithConcurrentMark then
      G1EvacuationRootClosures.ofInitialMark G1Mark.G1MarkPromotedFromRoot
        (G1InitalMarkClosures.new G1Mark.G1MarkPromotedFromRoot g1h pss)
    else
      G1EvacuationRootClosures.ofInitialMark G1Mark.G1MarkFromRoot
        (G1InitalMarkClosures.new G1Mark.G1MarkFromRoot g1h pss)
  else
    G1EvacuationRootClosures.ofEvacuation
      (G1EvacuationClosures.new g1h pss g1h.collector_state.gcs_are_young)

namespace G1EvacuationRootClosures

/-! Virtual dispatch of the interface methods. -/

def weak_oops : G1EvacuationRootClosures → Ptr
  | ofEvacuation c => c.weak_oops
  | ofInitialMark _ c => c.weak_oops

def strong_oops : G1EvacuationRootClosures → Ptr
  | ofEvacuation c => c.strong_oops
  | ofInitialMark _ c => c.strong_oops

def weak_clds : G1EvacuationRootClosures → Ptr
  | ofEvacuation c => c.weak_clds
  | ofInitialMark _ c => c.weak_clds

def strong_clds : G1EvacuationRootClosures → Ptr
  | ofEvacuation c => c.strong_clds
  | ofInitialMark _ c => c.strong_clds

def thread_root_clds : G1EvacuationRootClosures → Ptr
  | ofEvacuation c => c.thread_root_clds
  | ofInitialMark _ c => c.thread_root_clds

def second_pass_weak_clds : G1EvacuationRootClosures → Ptr
  | ofEvacuation c => c.second_pass_weak_clds
  | ofInitialMark _ c => c.second_pass_weak_clds

def strong_codeblobs : G1EvacuationRootClosures → Ptr
  | ofEvacuation c => c.strong_codeblobs
  | ofInitialMark _ c => c.strong_codeblobs

def weak_codeblobs : G1EvacuationRootClosures → Ptr
  | ofEvacuation c => c.weak_codeblobs
  | ofInitialMark _ c => c.weak_codeblobs

def flush (clock : Holder → ℚ) : G1EvacuationRootClosures → Option G1EvacuationRootClosures
  | ofEvacuation c => (c.flush clock).map ofEvacuation
  | ofInitialMark m c => (c.flush clock).map (ofInitialMark m)

def closure_app_seconds : G1EvacuationRootClosures → Double
  | ofEvacuation c => c.closure_app_seconds
  | ofInitialMark _ c => c.closure_app_seconds

def raw_strong_oops : G1EvacuationRootClosures → Ptr
  | ofEvacuation c => c.raw_strong_oops
  | ofInitialMark _ c => c.raw_strong_oops

def trace_metadata : G1EvacuationRootClosures → Bool
  | ofEvacuation c => c.trace_metadata
  | ofInitialMark _ c => c.trace_metadata

/-! Observations on a set, for stating properties. -/

/-- The holder members the set owns, in declaration order. -/
def holders : G1EvacuationRootClosures → List Holder
  | ofEvacuation _ => [Holder._closures]
  | ofInitialMark _ _ => [Holder._strong, Holder._weak]

/-- The buffering wrapper `h._buffered_oops`, when the set owns holder `h`. -/
def buffered_oops_of : G1EvacuationRootClosures → Holder → Option BufferingOopClosure
  | ofEvacuation c, Holder._closures => some c._closures._buffered_oops
  | ofInitialMark _ c, Holder._strong => some c._strong._buffered_oops
  | ofInitialMark _ c, Holder._weak => some c._weak._buffered_oops
  | _, _ => none

/-- The oops the downstream visitor `h._oops` has received so far (none when
the set does not own holder `h`). -/
def delivered : G1EvacuationRootClosures → Holder → List Oop
  | ofEvacuation c, Holder._closures => c._closures._oops.received
  | ofInitialMark _ c, Holder._strong => c._strong._oops.received
  | ofInitialMark _ c, Holder._weak => c._weak._oops.received
  | _, _ => []

/-- The pending batch of the wrapper `h._buffered_oops`. -/
def pending (s : G1EvacuationRootClosures) (h : Holder) : List Oop :=
  match s.buffered_oops_of h with
  | some w => w._buffer
  | none => []

/-- Number of oops pending in all owned wrappers. -/
def buffered_count (s : G1EvacuationRootClosures) : Nat :=
  (s.holders.map fun h => (s.pending h).length).sum

/-- Number of oops received by all owned downstream visitors. -/
def delivered_count (s : G1EvacuationRootClosures) : Nat :=
  (s.holders.map fun h => (s.delivered h).length).sum

/-- The wiring `flush()` relies on: each owned wrapper forwards to the oop
visitor `_oops` of its own holder, as the constructor set it up. -/
def buffers_wired (s : G1EvacuationRootClosures) : Prop :=
  ∀ h ∈ s.holders,
    (s.buffered_oops_of h).map BufferingOopClosure._oc = some (some ⟨h, Member._oops⟩)

instance (s : G1EvacuationRootClosures) : Decidable s.buffers_wired := by
  unfold buffers_wired
  infer_instance

end G1EvacuationRootClosures

/-! ## Further observations -/

/-- Every pointer a holder stores in one of its members, in member order:
the klass closure's `_closure`, the CLD closure's `_klass_closure` and
`_oop_closure`, the code-blob closure's `_oc` and the wrapper's `_oc`. -/
def G1SharedClosures.pointers {Mark : G1Mark} (b : G1SharedClosures Mark) : List Ptr :=
  [b._klass_in_cld_closure._closure, b._clds._klass_closure, b._clds._oop_closure,
    b._codeblobs._oc, b._buffered_oops._oc]

namespace G1EvacuationRootClosures

/-- The weak mode of the dynamic type: `some MarkWeak` for
`G1InitalMarkClosures<MarkWeak>`, `none` for `G1EvacuationClosures`. -/
def weak_mode : G1EvacuationRootClosures → Option G1Mark
  | ofEvacuation _ => none
  | ofInitialMark m _ => some m

/-- For each owned holder: its template argument, the
`process_only_dirty` flag its klass closure holds and the `must_claim_cld`
flag its CLD closure holds. -/
def bundle_params : G1EvacuationRootClosures → List (Holder × G1Mark × Bool × Bool)
  | ofEvacuation c =>
      [(Holder._closures, c._closures.mark,
        c._closures._klass_in_cld_closure._process_only_dirty,
        c._closures._clds._must_claim_cld)]
  | ofInitialMark _ c =>
      [(Holder._strong, c._strong.mark, c._strong._klass_in_cld_closure._process_only_dirty,
        c._strong._clds._must_claim_cld),
       (Holder._weak, c._weak.mark, c._weak._klass_in_cld_closure._process_only_dirty,
        c._weak._clds._must_claim_cld)]

/-- The results of all pointer-returning accessors, in the order
`weak_oops`, `strong_oops`, `weak_clds`, `strong_clds`, `thread_root_clds`,
`second_pass_weak_clds`, `strong_codeblobs`, `weak_codeblobs`,
`raw_strong_oops`. -/
def accessors (s : G1EvacuationRootClosures) : List Ptr :=
  [s.weak_oops, s.strong_oops, s.weak_clds, s.strong_clds, s.thread_root_clds,
    s.second_pass_weak_clds, s.strong_codeblobs, s.weak_codeblobs, s.raw_strong_oops]

/-- The exact sum of the elapsed-time counters of all owned wrappers, before
any rounding. -/
def exact_seconds : G1EvacuationRootClosures → ℚ
  | ofEvacuation c => c._closures._buffered_oops._closure_app_seconds
  | ofInitialMark _ c =>
      c._strong._buffered_oops._closure_app_seconds +
        c._weak._buffered_oops._closure_app_seconds

/-- Virtual call `q->do_oop(p)` on an oop closure of the set. -/
def do_oop_at : G1EvacuationRootClosures → Ptr → Oop → Option G1EvacuationRootClosures
  | ofEvacuation c, q, p => (c.do_oop_at q p).map ofEvacuation
  | ofInitialMark m c, q, p => (c.do_oop_at q p).map (ofInitialMark m)

/-- Modelled from the spec: a forwarding call `h._buffered_oops.done()` of the
wrapper in the owned holder `h`, taking the wall time `dt`. -/
def buffered_oops_done :
    G1EvacuationRootClosures → Holder → ℚ → Option G1EvacuationRootClosures
  | ofEvacuation c, Holder._closures, dt =>
      (c._closures_buffered_oops_done dt).map ofEvacuation
  | ofInitialMark m c, Holder._strong, dt =>
      (c._strong_buffered_oops_done dt).map (ofInitialMark m)
  | ofInitialMark m c, Holder._weak, dt =>
      (c._weak_buffered_oops_done dt).map (ofInitialMark m)
  | _, _, _ => none

end G1EvacuationRootClosures

/-! ## Operations on a set before `flush()` -/

/-- What happens to a set between its creation and `flush()`: a closure of the
set is applied to an oop, a wrapper forwards its batch (modelled from the
spec: the only event that adds to an elapsed-time counter), or
`closure_app_seconds()` is read. -/
inductive DriverOp where
  | do_oop (q : Ptr) (p : Oop)
  | forward (h : Holder) (dt : ℚ)
  | closure_app_seconds
  deriving DecidableEq, Repr

/-- The wall time an operation spends in a forwarding call. -/
def DriverOp.elapsed : DriverOp → ℚ
  | DriverOp.forward _ dt => dt
  | _ => 0

/-- One operation on a set; `none` when it dereferences a pointer that is no
closure of the kind needed. -/
def step (s : G1EvacuationRootClosures) : DriverOp → Option G1EvacuationRootClosures
  | DriverOp.do_oop q p => s.do_oop_at q p
  | DriverOp.forward h dt => s.buffered_oops_done h dt
  | DriverOp.closure_app_seconds => some s

/-- A sequence of operations, left to right. -/
def run (s : G1EvacuationRootClosures) (ops : List DriverOp) :
    Option G1EvacuationRootClosures :=
  ops.foldlM step s

/-- An operation a driver can perform on a set owning the holders `hs`: it
applies `do_oop` to one of the three oop closures of an owned holder (the
pointers `strong_oops()`, `weak_oops()` and `raw_strong_oops()` are such), or
an owned wrapper forwards, or the time is read. -/
def DriverOp.valid (hs : List Holder) : DriverOp → Prop
  | DriverOp.do_oop q _ =>
      ∃ h ∈ hs, q = some ⟨h, Member._oops⟩ ∨ q = some ⟨h, Member._oop_in_klass⟩ ∨
        q = some ⟨h, Member._buffered_oops⟩
  | DriverOp.forward h _ => h ∈ hs
  | DriverOp.closure_app_seconds => True

instance (hs : List Holder) (op : DriverOp) : Decidable (op.valid hs) := by
  cases op <;> unfold DriverOp.valid <;> infer_instance

/-! ## Sample sets -/

/-- The initial-mark set the factory builds when class unloading is enabled,
after the oops 11 and 12 were batched by the strong wrapper and the oop 21 by
the weak wrapper. -/
def sample_initial_mark_set : G1EvacuationRootClosures :=
  let c := G1InitalMarkClosures.new G1Mark.G1MarkPromotedFromRoot ⟨⟨true, false⟩⟩ ⟨0⟩
  G1EvacuationRootClosures.ofInitialMark G1Mark.G1MarkPromotedFromRoot
    { _strong :=
        { c._strong with _buffered_oops := (c._strong._buffered_oops.do_oop 11).do_oop 12 }
      _weak := { c._weak with _buffered_oops := c._weak._buffered_oops.do_oop 21 } }

/-- A clock that charges nothing for forwarding. -/
def sample_clock : Holder → ℚ := fun _ => 0

/-- The initial-mark set the factory returns when class unloading is
enabled. -/
def sample_factory_set : G1EvacuationRootClosures :=
  create_root_closures true ⟨0⟩ ⟨⟨true, false⟩⟩

/-- The oop 11 goes through `strong_oops()`, then the strong wrapper forwards
its batch, which takes one second. -/
def sample_ops_early : List DriverOp :=
  [DriverOp.do_oop sample_factory_set.strong_oops 11, DriverOp.forward Holder._strong 1]

/-- The oop 21 goes through `weak_oops()`, then the time is read. -/
def sample_ops_late : List DriverOp :=
  [DriverOp.do_oop sample_factory_set.weak_oops 21, DriverOp.closure_app_seconds]

/-- A clock that charges one second for each forwarding call. -/
def sample_unit_clock : Holder → ℚ := fun _ => 1

/-- An initial-mark set whose strong wrapper has accumulated the double `0.1`
and whose weak wrapper has accumulated the double `0.2`. -/
def sample_tenths_set : G1InitalMarkClosures G1Mark.G1MarkFromRoot :=
  let c := G1InitalMarkClosures.new G1Mark.G1MarkFromRoot ⟨⟨true, false⟩⟩ ⟨0⟩
  { _strong :=
      { c._strong with
        _buffered_oops :=
          { c._strong._buffered_oops with
            _closure_app_seconds := 3602879701896397 / 2 ^ 55 } }
    _weak :=
      { c._weak with
        _buffered_oops :=
          { c._weak._buffered_oops with
            _closure_app_seconds := 3602879701896397 / 2 ^ 54 } } }

/-! ## Properties -/

open G1EvacuationRootClosures

/-! ### The forwarding loop on a wired wrapper -/

theorem G1EvacuationClosures.process_buffer_wired (w : BufferingOopClosure)
    (hw : w._oc = some ⟨Holder._closures, Member._oops⟩) (c : G1EvacuationClosures) :
    w.process_buffer G1EvacuationClosures.do_oop_at c =
      some { c with _closures := c._closures.receive w._buffer } := by
  unfold BufferingOopClosure.process_buffer
  rw [hw]
  generalize w._buffer = l
  induction l generalizing c with
  | nil => simp [G1SharedClosures.receive]
  | cons p l ih =>
    have step : c.do_oop_at (some ⟨Holder._closures, Member._oops⟩) p =
        some { c with _closures := { c._closures with _oops := c._closures._oops.do_oop p } } :=
      rfl
    rw [List.foldlM_cons, step]
    show List.foldlM _ _ l = _
    rw [ih]
    simp [G1SharedClosures.receive, G1ParCopyClosure.do_oop]

theorem G1InitalMarkClosures.process_buffer_wired_strong {MarkWeak : G1Mark}
    (w : BufferingOopClosure) (hw : w._oc = some ⟨Holder._strong, Member._oops⟩)
    (c : G1InitalMarkClosures MarkWeak) :
    w.process_buffer G1InitalMarkClosures.do_oop_at c =
      some { c with _strong := c._strong.receive w._buffer } := by
  unfold BufferingOopClosure.process_buffer
  rw [hw]
  generalize w._buffer = l
  induction l generalizing c with
  | nil => simp [G1SharedClosures.receive]
  | cons p l ih =>
    have step : c.do_oop_at (some ⟨Holder._strong, Member._oops⟩) p =
        some { c with _strong := { c._strong with _oops := c._strong._oops.do_oop p } } :=
      rfl
    rw [List.foldlM_cons, step]
    show List.foldlM _ _ l = _
    rw [ih]
    simp [G1SharedClosures.receive, G1ParCopyClosure.do_oop]

theorem G1InitalMarkClosures.process_buffer_wired_weak {MarkWeak : G1Mark}
    (w : BufferingOopClosure) (hw : w._oc = some ⟨Holder._weak, Member._oops⟩)
    (c : G1InitalMarkClosures MarkWeak) :
    w.process_buffer G1InitalMarkClosures.do_oop_at c =
      some { c with _weak := c._weak.receive w._buffer } := by
  unfold BufferingOopClosure.process_buffer
  rw [hw]
  generalize w._buffer = l
  induction l generalizing c with
  | nil => simp [G1SharedClosures.receive]
  | cons p l ih =>
    have step : c.do_oop_at (some ⟨Holder._weak, Member._oops⟩) p =
        some { c with _weak := { c._weak with _oops := c._weak._oops.do_oop p } } :=
      rfl
    rw [List.foldlM_cons, step]
    show List.foldlM _ _ l = _
    rw [ih]
    simp [G1SharedClosures.receive, G1ParCopyClosure.do_oop]

/-- On a wired evacuation set `flush()` succeeds with this state. -/
theorem G1EvacuationClosures.evacuation_flush_wired (c : G1EvacuationClosures) (clock : Holder → ℚ)
    (hw : c._closures._buffered_oops._oc = some ⟨Holder._closures, Member._oops⟩) :
    c.flush clock = some
      { _closures :=
          { c._closures.receive c._closures._buffered_oops._buffer with
            _buffered_oops := c._closures._buffered_oops.batch_done (clock Holder._closures) } } := by
  simp [G1EvacuationClosures.flush, G1EvacuationClosures._closures_buffered_oops_done,
    G1EvacuationClosures.process_buffer_wired _ hw, G1SharedClosures.receive]

/-- On a wired initial-mark set `flush()` succeeds with this state. -/
theorem G1InitalMarkClosures.initial_mark_flush_wired {MarkWeak : G1Mark}
    (c : G1InitalMarkClosures MarkWeak) (clock : Holder → ℚ)
    (hs : c._strong._buffered_oops._oc = some ⟨Holder._strong, Member._oops⟩)
    (hw : c._weak._buffered_oops._oc = some ⟨Holder._weak, Member._oops⟩) :
    c.flush clock = some
      { _strong :=
          { c._strong.receive c._strong._buffered_oops._buffer with
            _buffered_oops := c._strong._buffered_oops.batch_done (clock Holder._strong) }
        _weak :=
          { c._weak.receive c._weak._buffered_oops._buffer with
            _buffered_oops := c._weak._buffered_oops.batch_done (clock Holder._weak) } } := by
  simp [G1InitalMarkClosures.flush, G1InitalMarkClosures._strong_buffered_oops_done,
    G1InitalMarkClosures._weak_buffered_oops_done,
    G1InitalMarkClosures.process_buffer_wired_strong _ hs,
    G1InitalMarkClosures.process_buffer_wired_weak _ hw, G1SharedClosures.receive]

/-- Every set the factory returns is wired as `flush()` needs it. -/
theorem create_root_closures_buffers_wired (class_unloading : Bool)
    (pss : G1ParScanThreadState) (g1h : G1CollectedHeap) :
    (create_root_closures class_unloading pss g1h).buffers_wired := by
  obtain ⟨⟨d, y⟩⟩ := g1h
  cases d <;> cases class_unloading <;> intro h hh <;>
    simp [create_root_closures, holders] at hh <;>
    (try rcases hh with rfl | rfl) <;> rfl

/-! ### The claims -/

/-- C1: the factory's decision table.  Outside an initial-mark pause the
factory returns the evacuation set (whatever the class-unloading flag);
during an initial-mark pause it returns the initial-mark set with weak mode
`G1MarkPromotedFromRoot` when class unloading is enabled and with weak mode
`G1MarkFromRoot` when it is not. -/
theorem create_root_closures_decision_table
    (pss : G1ParScanThreadState) (class_unloading gcs_are_young : Bool) :
    create_root_closures class_unloading pss ⟨⟨false, gcs_are_young⟩⟩ =
        ofEvacuation (G1EvacuationClosures.new ⟨⟨false, gcs_are_young⟩⟩ pss gcs_are_young) ∧
      create_root_closures true pss ⟨⟨true, gcs_are_young⟩⟩ =
        ofInitialMark G1Mark.G1MarkPromotedFromRoot
          (G1InitalMarkClosures.new G1Mark.G1MarkPromotedFromRoot
            ⟨⟨true, gcs_are_young⟩⟩ pss) ∧
      create_root_closures false pss ⟨⟨true, gcs_are_young⟩⟩ =
        ofInitialMark G1Mark.G1MarkFromRoot
          (G1InitalMarkClosures.new G1Mark.G1MarkFromRoot ⟨⟨true, gcs_are_young⟩⟩ pss) :=
  ⟨by cases class_unloading <;> rfl, rfl, rfl⟩

/-- C2: in an initial-mark set with weak mode `G1MarkPromotedFromRoot`,
`weak_clds()` is `NULL`, `thread_root_clds()` is the same object as
`strong_clds()`, namely `&_strong._clds`, `second_pass_weak_clds()` is
`&_weak._clds` and differs from `strong_clds()`, and `trace_metadata()` is
true. -/
theorem initial_mark_promoted_accessors
    (c : G1InitalMarkClosures G1Mark.G1MarkPromotedFromRoot) :
    (ofInitialMark _ c).weak_clds = none ∧
      (ofInitialMark _ c).thread_root_clds = some ⟨Holder._strong, Member._clds⟩ ∧
      (ofInitialMark _ c).thread_root_clds = (ofInitialMark _ c).strong_clds ∧
      (ofInitialMark _ c).second_pass_weak_clds = some ⟨Holder._weak, Member._clds⟩ ∧
      (ofInitialMark _ c).second_pass_weak_clds ≠ (ofInitialMark _ c).strong_clds ∧
      (ofInitialMark _ c).trace_metadata = true :=
  ⟨rfl, rfl, rfl, rfl,
    by simp [second_pass_weak_clds, strong_clds, G1InitalMarkClosures.second_pass_weak_clds,
      G1InitalMarkClosures.strong_clds, G1InitalMarkClosures.null_if],
    rfl⟩

/-- C3: in an initial-mark set with weak mode `G1MarkFromRoot`,
`thread_root_clds()` and `second_pass_weak_clds()` are `NULL`,
`strong_clds()` is `&_strong._clds`, `weak_clds()` is `&_weak._clds`, the two
differ, and `trace_metadata()` is false. -/
theorem initial_mark_from_root_accessors
    (c : G1InitalMarkClosures G1Mark.G1MarkFromRoot) :
    (ofInitialMark _ c).thread_root_clds = none ∧
      (ofInitialMark _ c).second_pass_weak_clds = none ∧
      (ofInitialMark _ c).strong_clds = some ⟨Holder._strong, Member._clds⟩ ∧
      (ofInitialMark _ c).weak_clds = some ⟨Holder._weak, Member._clds⟩ ∧
      (ofInitialMark _ c).strong_clds ≠ (ofInitialMark _ c).weak_clds ∧
      (ofInitialMark _ c).trace_metadata = false :=
  ⟨rfl, rfl, rfl, rfl,
    by simp [weak_clds, strong_clds, G1InitalMarkClosures.weak_clds,
      G1InitalMarkClosures.strong_clds, G1InitalMarkClosures.null_if],
    rfl⟩

/-- C4: the set the factory returns has `trace_metadata()` true exactly when
the pause is an initial-mark pause and class unloading is enabled; an
evacuation set always answers false. -/
theorem create_root_closures_trace_metadata
    (class_unloading : Bool) (pss : G1ParScanThreadState) (g1h : G1CollectedHeap) :
    ((create_root_closures class_unloading pss g1h).trace_metadata = true ↔
        (g1h.collector_state.during_initial_mark_pause = true ∧ class_unloading = true)) ∧
      ((create_root_closures class_unloading pss g1h).trace_metadata = true ↔
        ∃ c, create_root_closures class_unloading pss g1h =
          ofInitialMark G1Mark.G1MarkPromotedFromRoot c) ∧
      ∀ c : G1EvacuationClosures, (ofEvacuation c).trace_metadata = false := by
  obtain ⟨⟨d, y⟩⟩ := g1h
  refine ⟨?_, ?_, fun _ => rfl⟩
  · cases d <;> cases class_unloading <;>
      simp [create_root_closures, trace_metadata, G1EvacuationClosures.trace_metadata,
        G1InitalMarkClosures.trace_metadata]
  · cases d <;> cases class_unloading <;>
      simp [create_root_closures, trace_metadata, G1EvacuationClosures.trace_metadata,
        G1InitalMarkClosures.trace_metadata]

/-- C5: in an evacuation set the weak and the strong accessor of each pair
return the identical object, a member of the single holder `_closures`:
`&_closures._buffered_oops`, `&_closures._clds` and `&_closures._codeblobs`. -/
theorem evacuation_accessors_alias (c : G1EvacuationClosures) :
    ((ofEvacuation c).weak_oops = (ofEvacuation c).strong_oops ∧
        (ofEvacuation c).strong_oops = some ⟨Holder._closures, Member._buffered_oops⟩) ∧
      ((ofEvacuation c).weak_clds = (ofEvacuation c).strong_clds ∧
        (ofEvacuation c).strong_clds = some ⟨Holder._closures, Member._clds⟩) ∧
      ((ofEvacuation c).weak_codeblobs = (ofEvacuation c).strong_codeblobs ∧
        (ofEvacuation c).strong_codeblobs = some ⟨Holder._closures, Member._codeblobs⟩) :=
  ⟨⟨rfl, rfl⟩, ⟨rfl, rfl⟩, ⟨rfl, rfl⟩⟩

/-- C6: in an evacuation set, whatever the young-only flag it was built with,
`thread_root_clds()` and `second_pass_weak_clds()` are `NULL` while
`strong_clds()` and `weak_clds()` are not. -/
theorem evacuation_second_pass_absent (c : G1EvacuationClosures) :
    (ofEvacuation c).thread_root_clds = none ∧
      (ofEvacuation c).second_pass_weak_clds = none ∧
      (ofEvacuation c).strong_clds ≠ none ∧
      (ofEvacuation c).weak_clds ≠ none :=
  ⟨rfl, rfl, by simp [strong_clds, G1EvacuationClosures.strong_clds],
    by simp [weak_clds, G1EvacuationClosures.weak_clds]⟩

/-- C7: outside an initial-mark pause the factory returns a set that owns the
single holder `_closures`, instantiated with `G1MarkNone`, whose klass
closure processes only dirty klasses exactly when the pause context says the
GCs are young, and whose CLD closure does not claim. -/
theorem create_root_closures_evacuation_bundle
    (class_unloading : Bool) (pss : G1ParScanThreadState) (gcs_are_young : Bool) :
    ∃ c : G1EvacuationClosures,
      create_root_closures class_unloading pss ⟨⟨false, gcs_are_young⟩⟩ = ofEvacuation c ∧
      (ofEvacuation c).holders = [Holder._closures] ∧
      c._closures.mark = G1Mark.G1MarkNone ∧
      c._closures._klass_in_cld_closure._process_only_dirty = gcs_are_young ∧
      c._closures._clds._must_claim_cld = false :=
  ⟨G1EvacuationClosures.new ⟨⟨false, gcs_are_young⟩⟩ pss gcs_are_young,
    by cases class_unloading <;> rfl, rfl, rfl, rfl, rfl⟩

/-- C8: during an initial-mark pause the factory returns an initial-mark set
whose strong holder is instantiated with `G1MarkFromRoot`, whose weak holder
is instantiated with the selected weak mode, which is `G1MarkFromRoot` or
`G1MarkPromotedFromRoot` and never `G1MarkNone`, and both holders are built
with `process_only_dirty_klasses = false` and `must_claim_cld = true`. -/
theorem create_root_closures_initial_mark_bundles
    (class_unloading : Bool) (pss : G1ParScanThreadState) (gcs_are_young : Bool) :
    ∃ (MarkWeak : G1Mark) (c : G1InitalMarkClosures MarkWeak),
      create_root_closures class_unloading pss ⟨⟨true, gcs_are_young⟩⟩ =
        ofInitialMark MarkWeak c ∧
      (ofInitialMark MarkWeak c).holders = [Holder._strong, Holder._weak] ∧
      c._strong.mark = G1Mark.G1MarkFromRoot ∧
      c._weak.mark = MarkWeak ∧
      MarkWeak = (if class_unloading then G1Mark.G1MarkPromotedFromRoot
        else G1Mark.G1MarkFromRoot) ∧
      (MarkWeak = G1Mark.G1MarkFromRoot ∨ MarkWeak = G1Mark.G1MarkPromotedFromRoot) ∧
      MarkWeak ≠ G1Mark.G1MarkNone ∧
      c._strong._klass_in_cld_closure._process_only_dirty = false ∧
      c._strong._clds._must_claim_cld = true ∧
      c._weak._klass_in_cld_closure._process_only_dirty = false ∧
      c._weak._clds._must_claim_cld = true := by
  cases class_unloading
  · exact ⟨G1Mark.G1MarkFromRoot, G1InitalMarkClosures.new _ ⟨⟨true, gcs_are_young⟩⟩ pss,
      rfl, rfl, rfl, rfl, rfl, Or.inl rfl, by decide, rfl, rfl, rfl, rfl⟩
  · exact ⟨G1Mark.G1MarkPromotedFromRoot,
      G1InitalMarkClosures.new _ ⟨⟨true, gcs_are_young⟩⟩ pss,
      rfl, rfl, rfl, rfl, rfl, Or.inr rfl, by decide, rfl, rfl, rfl, rfl⟩

/-- C9: `flush()` delivers every buffered oop to the downstream visitor exactly
once.  On a set whose owned wrappers forward to the oop visitor of their own
holder, `flush()` returns, keeps the owned holders, leaves no wrapper with a
pending oop, appends to what each downstream visitor had received exactly the
batch that was pending in the wrapper of the same holder (so each oop is
delivered as often as it was buffered), and the number delivered grows by the
number buffered before the call. -/
theorem flush_delivers_buffered_oops (s : G1EvacuationRootClosures) (clock : Holder → ℚ)
    (hw : s.buffers_wired) :
    ∃ t, s.flush clock = some t ∧
      t.holders = s.holders ∧
      (∀ h, t.pending h = []) ∧
      (∀ h, t.delivered h = s.delivered h ++ s.pending h) ∧
      (∀ h p, (t.delivered h).count p = (s.delivered h).count p + (s.pending h).count p) ∧
      t.buffered_count = 0 ∧
      t.delivered_count = s.delivered_count + s.buffered_count := by
  cases s with
  | ofEvacuation c =>
    have h1 : c._closures._buffered_oops._oc = some ⟨Holder._closures, Member._oops⟩ := by
      simpa [buffers_wired, holders, buffered_oops_of] using hw
    refine ⟨ofEvacuation
        { _closures :=
            { c._closures.receive c._closures._buffered_oops._buffer with
              _buffered_oops :=
                c._closures._buffered_oops.batch_done (clock Holder._closures) } },
      by rw [flush, G1EvacuationClosures.evacuation_flush_wired c clock h1]; rfl, rfl, ?_, ?_, ?_, ?_, ?_⟩
    · intro h
      cases h <;> simp [pending, buffered_oops_of, BufferingOopClosure.batch_done]
    · intro h
      cases h <;> simp [pending, delivered, buffered_oops_of, G1SharedClosures.receive]
    · intro h p
      cases h <;> simp [pending, delivered, buffered_oops_of, G1SharedClosures.receive]
    · simp [buffered_count, holders, pending, buffered_oops_of, BufferingOopClosure.batch_done]
    · simp [delivered_count, buffered_count, holders, pending, delivered, buffered_oops_of,
        G1SharedClosures.receive]
  | ofInitialMark m c =>
    have h1 : c._strong._buffered_oops._oc = some ⟨Holder._strong, Member._oops⟩ := by
      have := hw Holder._strong (by simp [holders])
      simpa [buffered_oops_of] using this
    have h2 : c._weak._buffered_oops._oc = some ⟨Holder._weak, Member._oops⟩ := by
      have := hw Holder._weak (by simp [holders])
      simpa [buffered_oops_of] using this
    refine ⟨ofInitialMark m
        { _strong :=
            { c._strong.receive c._strong._buffered_oops._buffer with
              _buffered_oops := c._strong._buffered_oops.batch_done (clock Holder._strong) }
          _weak :=
            { c._weak.receive c._weak._buffered_oops._buffer with
              _buffered_oops := c._weak._buffered_oops.batch_done (clock Holder._weak) } },
      by rw [flush, G1InitalMarkClosures.initial_mark_flush_wired c clock h1 h2]; rfl, rfl, ?_, ?_, ?_, ?_,
      ?_⟩
    · intro h
      cases h <;> simp [pending, buffered_oops_of, BufferingOopClosure.batch_done]
    · intro h
      cases h <;> simp [pending, delivered, buffered_oops_of, G1SharedClosures.receive]
    · intro h p
      cases h <;> simp [pending, delivered, buffered_oops_of, G1SharedClosures.receive]
    · simp [buffered_count, holders, pending, buffered_oops_of, BufferingOopClosure.batch_done]
    · simp [delivered_count, buffered_count, holders, pending, delivered, buffered_oops_of,
        G1SharedClosures.receive]
      omega

/-- C9 at a concrete input: the sample initial-mark set is wired, and flushing
it delivers its three pending oops. -/
theorem flush_delivers_buffered_oops_witness :
    sample_initial_mark_set.buffers_wired ∧
      sample_initial_mark_set.buffered_count = 3 ∧
      ∃ t, sample_initial_mark_set.flush sample_clock = some t ∧
        t.holders = sample_initial_mark_set.holders ∧
        (∀ h, t.pending h = []) ∧
        (∀ h, t.delivered h =
          sample_initial_mark_set.delivered h ++ sample_initial_mark_set.pending h) ∧
        (∀ h p, (t.delivered h).count p =
          (sample_initial_mark_set.delivered h).count p +
            (sample_initial_mark_set.pending h).count p) ∧
        t.buffered_count = 0 ∧
        t.delivered_count =
          sample_initial_mark_set.delivered_count + sample_initial_mark_set.buffered_count :=
  ⟨by decide, by decide,
    flush_delivers_buffered_oops sample_initial_mark_set sample_clock (by decide)⟩

/-- C12: outside an initial-mark pause the class-unloading flag is ignored.
For every young-only flag the factory returns the very same set with the flag
on as with the flag off, hence the same variant, the same bundle parameters
and the same result of every accessor. -/
theorem create_root_closures_ignores_class_unloading
    (pss : G1ParScanThreadState) (gcs_are_young : Bool) :
    create_root_closures true pss ⟨⟨false, gcs_are_young⟩⟩ =
        create_root_closures false pss ⟨⟨false, gcs_are_young⟩⟩ ∧
      (create_root_closures true pss ⟨⟨false, gcs_are_young⟩⟩).weak_mode = none ∧
      (create_root_closures false pss ⟨⟨false, gcs_are_young⟩⟩).weak_mode = none ∧
      (create_root_closures true pss ⟨⟨false, gcs_are_young⟩⟩).bundle_params =
        (create_root_closures false pss ⟨⟨false, gcs_are_young⟩⟩).bundle_params ∧
      (create_root_closures true pss ⟨⟨false, gcs_are_young⟩⟩).accessors =
        (create_root_closures false pss ⟨⟨false, gcs_are_young⟩⟩).accessors ∧
      (create_root_closures true pss ⟨⟨false, gcs_are_young⟩⟩).trace_metadata =
        (create_root_closures false pss ⟨⟨false, gcs_are_young⟩⟩).trace_metadata ∧
      (create_root_closures true pss ⟨⟨false, gcs_are_young⟩⟩).closure_app_seconds =
        (create_root_closures false pss ⟨⟨false, gcs_are_young⟩⟩).closure_app_seconds :=
  ⟨rfl, rfl, rfl, rfl, rfl, rfl, rfl⟩

/-- C13: in every set of either class `strong_oops()` and `weak_oops()` are the
buffering wrapper `_buffered_oops` of an owned holder, never the member
`_oops`; `raw_strong_oops()` is the member `_oops` of the holder whose wrapper
`strong_oops()` returns (`_strong` in an initial-mark set, whatever the weak
mode) and is a different object from `strong_oops()` and from `weak_oops()`.
In every set a constructor builds, the wrapper behind `strong_oops()` forwards
to exactly `raw_strong_oops()`. -/
theorem oops_accessors_are_buffered :
    (∀ s : G1EvacuationRootClosures, ∃ h ∈ s.holders, ∃ k ∈ s.holders,
        s.strong_oops = some ⟨h, Member._buffered_oops⟩ ∧
        s.weak_oops = some ⟨k, Member._buffered_oops⟩ ∧
        s.raw_strong_oops = some ⟨h, Member._oops⟩ ∧
        s.raw_strong_oops ≠ s.strong_oops ∧
        s.raw_strong_oops ≠ s.weak_oops) ∧
      (∀ (MarkWeak : G1Mark) (c : G1InitalMarkClosures MarkWeak),
        (ofInitialMark MarkWeak c).strong_oops = some ⟨Holder._strong, Member._buffered_oops⟩ ∧
        (ofInitialMark MarkWeak c).weak_oops = some ⟨Holder._weak, Member._buffered_oops⟩ ∧
        (ofInitialMark MarkWeak c).raw_strong_oops = some ⟨Holder._strong, Member._oops⟩) ∧
      (∀ (g1h : G1CollectedHeap) (pss : G1ParScanThreadState) (gcs_are_young : Bool),
        ((ofEvacuation (G1EvacuationClosures.new g1h pss gcs_are_young)).buffered_oops_of
            Holder._closures).map BufferingOopClosure._oc =
          some (ofEvacuation
            (G1EvacuationClosures.new g1h pss gcs_are_young)).raw_strong_oops) ∧
      ∀ (MarkWeak : G1Mark) (g1h : G1CollectedHeap) (pss : G1ParScanThreadState),
        ((ofInitialMark MarkWeak (G1InitalMarkClosures.new MarkWeak g1h pss)).buffered_oops_of
            Holder._strong).map BufferingOopClosure._oc =
          some (ofInitialMark MarkWeak
            (G1InitalMarkClosures.new MarkWeak g1h pss)).raw_strong_oops := by
  refine ⟨?_, fun _ _ => ⟨rfl, rfl, rfl⟩, fun _ _ _ => rfl, fun _ _ _ => rfl⟩
  intro s
  cases s with
  | ofEvacuation c =>
    exact ⟨Holder._closures, by simp [holders], Holder._closures, by simp [holders], rfl, rfl,
      rfl, by simp [raw_strong_oops, strong_oops, G1EvacuationClosures.raw_strong_oops,
        G1EvacuationClosures.strong_oops],
      by simp [raw_strong_oops, weak_oops, G1EvacuationClosures.raw_strong_oops,
        G1EvacuationClosures.weak_oops]⟩
  | ofInitialMark m c =>
    exact ⟨Holder._strong, by simp [holders], Holder._weak, by simp [holders], rfl, rfl,
      rfl, by simp [raw_strong_oops, strong_oops, G1InitalMarkClosures.raw_strong_oops,
        G1InitalMarkClosures.strong_oops],
      by simp [raw_strong_oops, weak_oops, G1InitalMarkClosures.raw_strong_oops,
        G1InitalMarkClosures.weak_oops]⟩

/-- C14: the code-blob accessors are never suppressed.  In every set both
`strong_codeblobs()` and `weak_codeblobs()` are non-`NULL`; in an initial-mark
set, whatever the weak mode, they are `&_strong._codeblobs` and
`&_weak._codeblobs`, two different objects; and so it is for every set the
factory returns. -/
theorem codeblobs_accessors_present :
    (∀ s : G1EvacuationRootClosures, s.strong_codeblobs ≠ none ∧ s.weak_codeblobs ≠ none) ∧
      (∀ (MarkWeak : G1Mark) (c : G1InitalMarkClosures MarkWeak),
        (ofInitialMark MarkWeak c).strong_codeblobs =
            some ⟨Holder._strong, Member._codeblobs⟩ ∧
          (ofInitialMark MarkWeak c).weak_codeblobs = some ⟨Holder._weak, Member._codeblobs⟩ ∧
          (ofInitialMark MarkWeak c).strong_codeblobs ≠
            (ofInitialMark MarkWeak c).weak_codeblobs) ∧
      ∀ (class_unloading : Bool) (pss : G1ParScanThreadState) (g1h : G1CollectedHeap),
        (create_root_closures class_unloading pss g1h).strong_codeblobs ≠ none ∧
          (create_root_closures class_unloading pss g1h).weak_codeblobs ≠ none := by
  have all : ∀ s : G1EvacuationRootClosures,
      s.strong_codeblobs ≠ none ∧ s.weak_codeblobs ≠ none := by
    intro s
    cases s <;>
      simp [strong_codeblobs, weak_codeblobs, G1EvacuationClosures.strong_codeblobs,
        G1EvacuationClosures.weak_codeblobs, G1InitalMarkClosures.strong_codeblobs,
        G1InitalMarkClosures.weak_codeblobs]
  refine ⟨all, fun _ _ => ⟨rfl, rfl, ?_⟩, fun _ _ _ => all _⟩
  simp [strong_codeblobs, weak_codeblobs, G1InitalMarkClosures.strong_codeblobs,
    G1InitalMarkClosures.weak_codeblobs]

/-- C15: the wiring of a closure holder.  In the holder the constructor builds
at location `self` from `(g1h, pss, process_only_dirty_klasses,
must_claim_cld)`, the CLD closure holds exactly the given `must_claim_cld` and
points to the holder's own klass closure, which holds exactly the given
`process_only_dirty_klasses` and points to the holder's own metadata oop
visitor `_oop_in_klass`; the code-blob closure and the buffering wrapper both
point to the holder's own oop visitor `_oops`, the object `raw_strong_oops()`
returns; and every pointer stored in the holder points into the holder
itself, none into another holder. -/
theorem shared_closures_wiring (Mark : G1Mark) (self : Holder) (g1h : G1CollectedHeap)
    (pss : G1ParScanThreadState) (process_only_dirty_klasses must_claim_cld : Bool) :
    let b := G1SharedClosures.new Mark self g1h pss process_only_dirty_klasses must_claim_cld
    b._clds._klass_closure = some ⟨self, Member._klass_in_cld_closure⟩ ∧
      b._klass_in_cld_closure._closure = some ⟨self, Member._oop_in_klass⟩ ∧
      b._klass_in_cld_closure._process_only_dirty = process_only_dirty_klasses ∧
      b._clds._must_claim_cld = must_claim_cld ∧
      b._codeblobs._oc = some ⟨self, Member._oops⟩ ∧
      b._buffered_oops._oc = some ⟨self, Member._oops⟩ ∧
      b.mark = Mark ∧
      (ofEvacuation (G1EvacuationClosures.new g1h pss process_only_dirty_klasses)).raw_strong_oops
        = (G1SharedClosures.new G1Mark.G1MarkNone Holder._closures g1h pss
            process_only_dirty_klasses false)._buffered_oops._oc ∧
      (ofInitialMark Mark (G1InitalMarkClosures.new Mark g1h pss)).raw_strong_oops
        = (G1SharedClosures.new G1Mark.G1MarkFromRoot Holder._strong g1h pss
            false true)._codeblobs._oc ∧
      (∀ q ∈ b.pointers, ∃ m, q = some ⟨self, m⟩) ∧
      ∀ (other : Holder) (m : Member), other ≠ self → some ⟨other, m⟩ ∉ b.pointers := by
  intro b
  refine ⟨rfl, rfl, rfl, rfl, rfl, rfl, rfl, rfl, rfl, ?_, ?_⟩
  · intro q hq
    simp only [b, G1SharedClosures.pointers, G1SharedClosures.new, BufferingOopClosure.new,
      List.mem_cons, List.mem_singleton, List.not_mem_nil, or_false] at hq
    rcases hq with rfl | rfl | rfl | rfl | rfl <;> exact ⟨_, rfl⟩
  · intro other m hne hmem
    simp only [b, G1SharedClosures.pointers, G1SharedClosures.new, BufferingOopClosure.new,
      List.mem_cons, List.mem_singleton, List.not_mem_nil, or_false, Option.some.injEq,
      Addr.mk.injEq] at hmem
    rcases hmem with h | h | h | h | h <;> exact hne h.1

/-- C16: exactly one suppression pattern holds in an initial-mark set.  For
weak mode `G1MarkFromRoot` or `G1MarkPromotedFromRoot`, `strong_clds()` is
`&_strong._clds`, exactly one of `weak_clds()` and `second_pass_weak_clds()`
is non-`NULL` and that one is `&_weak._clds`, and `thread_root_clds()` is
non-`NULL` exactly when `second_pass_weak_clds()` is. -/
theorem initial_mark_one_suppression_pattern (MarkWeak : G1Mark)
    (c : G1InitalMarkClosures MarkWeak)
    (hm : MarkWeak = G1Mark.G1MarkFromRoot ∨ MarkWeak = G1Mark.G1MarkPromotedFromRoot) :
    (ofInitialMark MarkWeak c).strong_clds = some ⟨Holder._strong, Member._clds⟩ ∧
      (((ofInitialMark MarkWeak c).weak_clds = some ⟨Holder._weak, Member._clds⟩ ∧
          (ofInitialMark MarkWeak c).second_pass_weak_clds = none) ∨
        ((ofInitialMark MarkWeak c).weak_clds = none ∧
          (ofInitialMark MarkWeak c).second_pass_weak_clds =
            some ⟨Holder._weak, Member._clds⟩)) ∧
      ((ofInitialMark MarkWeak c).thread_root_clds ≠ none ↔
        (ofInitialMark MarkWeak c).second_pass_weak_clds ≠ none) := by
  rcases hm with rfl | rfl
  · exact ⟨rfl, Or.inl ⟨rfl, rfl⟩,
      by simp [thread_root_clds, second_pass_weak_clds, G1InitalMarkClosures.thread_root_clds,
        G1InitalMarkClosures.second_pass_weak_clds, G1InitalMarkClosures.null_if]⟩
  · exact ⟨rfl, Or.inr ⟨rfl, rfl⟩,
      by simp [thread_root_clds, second_pass_weak_clds, G1InitalMarkClosures.thread_root_clds,
        G1InitalMarkClosures.second_pass_weak_clds, G1InitalMarkClosures.null_if]⟩

/-- C16 at a concrete input: the initial-mark set built for weak mode
`G1MarkPromotedFromRoot`. -/
theorem initial_mark_one_suppression_pattern_witness :
    (G1Mark.G1MarkPromotedFromRoot = G1Mark.G1MarkFromRoot ∨
        G1Mark.G1MarkPromotedFromRoot = G1Mark.G1MarkPromotedFromRoot) ∧
      (ofInitialMark G1Mark.G1MarkPromotedFromRoot
          (G1InitalMarkClosures.new G1Mark.G1MarkPromotedFromRoot ⟨⟨true, false⟩⟩ ⟨0⟩)).strong_clds
        = some ⟨Holder._strong, Member._clds⟩ ∧
      (ofInitialMark G1Mark.G1MarkPromotedFromRoot
          (G1InitalMarkClosures.new G1Mark.G1MarkPromotedFromRoot ⟨⟨true, false⟩⟩ ⟨0⟩)).weak_clds
        = none ∧
      (ofInitialMark G1Mark.G1MarkPromotedFromRoot
          (G1InitalMarkClosures.new G1Mark.G1MarkPromotedFromRoot ⟨⟨true, false⟩⟩
            ⟨0⟩)).second_pass_weak_clds = some ⟨Holder._weak, Member._clds⟩ :=
  ⟨Or.inr rfl,
    (initial_mark_one_suppression_pattern G1Mark.G1MarkPromotedFromRoot
      (G1InitalMarkClosures.new G1Mark.G1MarkPromotedFromRoot ⟨⟨true, false⟩⟩ ⟨0⟩)
      (Or.inr rfl)).1,
    rfl, rfl⟩

/-- C17: during an initial-mark pause the young-only flag has no influence.
For every class-unloading flag the factory returns, for `gcs_are_young` true
as for false, an initial-mark set of the same weak mode, with the same bundle
parameters (`process_only_dirty` false and `must_claim_cld` true in both
holders), the same results of all accessors and the same `trace_metadata()`. -/
theorem create_root_closures_ignores_gcs_are_young
    (class_unloading : Bool) (pss : G1ParScanThreadState) :
    (create_root_closures class_unloading pss ⟨⟨true, true⟩⟩).weak_mode =
        (create_root_closures class_unloading pss ⟨⟨true, false⟩⟩).weak_mode ∧
      (create_root_closures class_unloading pss ⟨⟨true, true⟩⟩).weak_mode =
        some (if class_unloading then G1Mark.G1MarkPromotedFromRoot
          else G1Mark.G1MarkFromRoot) ∧
      (create_root_closures class_unloading pss ⟨⟨true, true⟩⟩).bundle_params =
        (create_root_closures class_unloading pss ⟨⟨true, false⟩⟩).bundle_params ∧
      (create_root_closures class_unloading pss ⟨⟨true, true⟩⟩).bundle_params =
        [(Holder._strong, G1Mark.G1MarkFromRoot, false, true),
         (Holder._weak,
           (if class_unloading then G1Mark.G1MarkPromotedFromRoot else G1Mark.G1MarkFromRoot),
           false, true)] ∧
      (create_root_closures class_unloading pss ⟨⟨true, true⟩⟩).accessors =
        (create_root_closures class_unloading pss ⟨⟨true, false⟩⟩).accessors ∧
      (create_root_closures class_unloading pss ⟨⟨true, true⟩⟩).trace_metadata =
        (create_root_closures class_unloading pss ⟨⟨true, false⟩⟩).trace_metadata := by
  cases class_unloading <;> exact ⟨rfl, rfl, rfl, rfl, rfl, rfl⟩

/-- C18: the filter `null_if`.  In a set parameterised by `MarkWeak`,
`null_if<Mark>` applied to a reference is `NULL` exactly when `Mark` equals
`MarkWeak`; for any pointer `t` it is `NULL` when the modes are equal and `t`
itself when they differ.  Hence in an initial-mark set instantiated with
`G1MarkNone` none of `weak_clds()`, `thread_root_clds()` and
`second_pass_weak_clds()` is suppressed, and `weak_clds()` and
`second_pass_weak_clds()` are the same object `&_weak._clds`. -/
theorem null_if_filter :
    (∀ (MarkWeak Mark : G1Mark) (a : Addr),
        G1InitalMarkClosures.null_if MarkWeak Mark (some a) = none ↔ Mark = MarkWeak) ∧
      (∀ (MarkWeak Mark : G1Mark) (t : Ptr),
        (Mark = MarkWeak → G1InitalMarkClosures.null_if MarkWeak Mark t = none) ∧
          (Mark ≠ MarkWeak → G1InitalMarkClosures.null_if MarkWeak Mark t = t)) ∧
      ∀ c : G1InitalMarkClosures G1Mark.G1MarkNone,
        (ofInitialMark _ c).weak_clds = some ⟨Holder._weak, Member._clds⟩ ∧
          (ofInitialMark _ c).thread_root_clds = some ⟨Holder._strong, Member._clds⟩ ∧
          (ofInitialMark _ c).second_pass_weak_clds = some ⟨Holder._weak, Member._clds⟩ ∧
          (ofInitialMark _ c).weak_clds = (ofInitialMark _ c).second_pass_weak_clds := by
  refine ⟨?_, ?_, fun _ => ⟨rfl, rfl, rfl, rfl⟩⟩
  · intro MarkWeak Mark a
    by_cases h : Mark = MarkWeak <;> simp [G1InitalMarkClosures.null_if, h]
  · intro MarkWeak Mark t
    exact ⟨fun h => by simp [G1InitalMarkClosures.null_if, h],
      fun h => by simp [G1InitalMarkClosures.null_if, h]⟩

/-! ### Rounding to binary64 -/

theorem round_half_even_cases (x : ℚ) :
    round_half_even x = ⌊x⌋ ∨ (round_half_even x = ⌊x⌋ + 1 ∧ 1 / 2 ≤ x - ⌊x⌋) := by
  unfold round_half_even
  split_ifs with h1 h2 h3
  · exact Or.inl rfl
  · exact Or.inr ⟨rfl, h2.le⟩
  · exact Or.inl rfl
  · exact Or.inr ⟨rfl, not_lt.mp h1⟩

theorem floor_le_round_half_even (x : ℚ) : ⌊x⌋ ≤ round_half_even x := by
  rcases round_half_even_cases x with h | ⟨h, _⟩ <;> omega

theorem round_half_even_le_floor_succ (x : ℚ) : round_half_even x ≤ ⌊x⌋ + 1 := by
  rcases round_half_even_cases x with h | ⟨h, _⟩ <;> omega

theorem round_half_even_le_of_le_int {x : ℚ} {m : ℤ} (h : x ≤ m) : round_half_even x ≤ m := by
  rcases round_half_even_cases x with h1 | ⟨h1, h2⟩
  · rw [h1]
    exact Int.floor_le_iff.mpr (by linarith)
  · rw [h1]
    have hlt : ⌊x⌋ < m := by
      rw [Int.floor_lt]
      rcases lt_or_eq_of_le h with h3 | h3
      · exact h3
      · exfalso
        rw [h3, Int.floor_intCast] at h2
        norm_num at h2
    omega

theorem int_le_round_half_even {x : ℚ} {m : ℤ} (h : (m : ℚ) ≤ x) : m ≤ round_half_even x :=
  (Int.le_floor.mpr h).trans (floor_le_round_half_even x)

theorem round_half_even_mono {x y : ℚ} (h : x ≤ y) : round_half_even x ≤ round_half_even y := by
  have hf : ⌊x⌋ ≤ ⌊y⌋ := Int.floor_mono h
  rcases lt_or_eq_of_le hf with hlt | heq
  · have := round_half_even_le_floor_succ x
    have := floor_le_round_half_even y
    omega
  · unfold round_half_even
    rw [← heq]
    have hd : x - ⌊x⌋ ≤ y - ⌊x⌋ := by linarith
    split_ifs <;> first | omega | (exfalso; linarith)

theorem round_half_even_zero : round_half_even 0 = 0 := by
  simp [round_half_even]


theorem binary64_ulp_pos (q : ℚ) : 0 < binary64_ulp q := by
  unfold binary64_ulp
  positivity

theorem binary64_round_zero : binary64_round 0 = 0 := by
  simp [binary64_round, round_half_even_zero]

theorem binary64_round_nonneg {q : ℚ} (h : 0 ≤ q) : 0 ≤ binary64_round q := by
  unfold binary64_round
  have h1 : ((0 : ℤ) : ℚ) ≤ q / binary64_ulp q := by
    simpa using div_nonneg h (binary64_ulp_pos q).le
  have h2 : (0 : ℤ) ≤ round_half_even (q / binary64_ulp q) := int_le_round_half_even h1
  exact mul_nonneg (by exact_mod_cast h2) (binary64_ulp_pos q).le

theorem binary64_exponent_mono {q r : ℚ} (h0 : 0 < q) (h : q ≤ r) :
    binary64_exponent q ≤ binary64_exponent r := by
  unfold binary64_exponent
  have : Int.log 2 |q| ≤ Int.log 2 |r| := by
    rw [abs_of_pos h0, abs_of_pos (h0.trans_le h)]
    exact Int.log_mono_right h0 h
  exact max_le_max this le_rfl

/-- A value rounds to at most the power of two that closes its binade. -/
theorem binary64_round_le_pow {q : ℚ} (h0 : 0 < q) :
    binary64_round q ≤ 2 ^ (binary64_exponent q + 1) := by
  have hq : q < 2 ^ (binary64_exponent q + 1) := by
    have h1 : q < (2 : ℚ) ^ (Int.log 2 q + 1) := by
      exact_mod_cast Int.lt_zpow_succ_log_self (b := 2) (by norm_num) q
    have h2 : Int.log 2 q + 1 ≤ binary64_exponent q + 1 := by
      unfold binary64_exponent
      rw [abs_of_pos h0]
      have := le_max_left (Int.log 2 q) (-1022)
      omega
    exact h1.trans_le (zpow_le_zpow_right₀ (by norm_num) h2)
  have hu := binary64_ulp_pos q
  have hgrid : (2 : ℚ) ^ (binary64_exponent q + 1) = ((2 ^ 53 : ℤ) : ℚ) * binary64_ulp q := by
    have h53 : ((2 ^ 53 : ℤ) : ℚ) = (2 : ℚ) ^ (53 : ℤ) := by norm_num
    rw [h53]
    unfold binary64_ulp
    rw [← zpow_add₀ (by norm_num)]
    congr 1
    omega
  unfold binary64_round
  rw [hgrid]
  have h3 : q / binary64_ulp q ≤ ((2 ^ 53 : ℤ) : ℚ) := by
    rw [div_le_iff₀ hu, ← hgrid]
    exact hq.le
  have h4 := round_half_even_le_of_le_int h3
  exact mul_le_mul_of_nonneg_right (by exact_mod_cast h4) hu.le

/-- A value in a binade above the lowest rounds to at least the power of two
that opens the binade. -/
theorem pow_le_binary64_round {q : ℚ} (h0 : 0 < q) (he : -1022 < binary64_exponent q) :
    2 ^ binary64_exponent q ≤ binary64_round q := by
  have hlog : binary64_exponent q = Int.log 2 q := by
    unfold binary64_exponent at he ⊢
    rw [abs_of_pos h0] at he ⊢
    rcases max_cases (Int.log 2 q) (-1022) with ⟨h, _⟩ | ⟨h, _⟩
    · exact h
    · rw [h] at he
      exact absurd he (lt_irrefl _)
  have hq : (2 : ℚ) ^ binary64_exponent q ≤ q := by
    rw [hlog]
    exact_mod_cast Int.zpow_log_le_self (b := 2) (by norm_num) h0
  have hu := binary64_ulp_pos q
  have hgrid : (2 : ℚ) ^ binary64_exponent q = ((2 ^ 52 : ℤ) : ℚ) * binary64_ulp q := by
    have h52 : ((2 ^ 52 : ℤ) : ℚ) = (2 : ℚ) ^ (52 : ℤ) := by norm_num
    rw [h52]
    unfold binary64_ulp
    rw [← zpow_add₀ (by norm_num)]
    congr 1
    omega
  unfold binary64_round
  rw [hgrid]
  have h3 : ((2 ^ 52 : ℤ) : ℚ) ≤ q / binary64_ulp q := by
    rw [le_div_iff₀ hu, ← hgrid]
    exact hq
  have h4 := int_le_round_half_even h3
  exact mul_le_mul_of_nonneg_right (by exact_mod_cast h4) hu.le

/-- Rounding to binary64 is monotone on the non-negative rationals. -/
theorem binary64_round_mono {q r : ℚ} (h0 : 0 ≤ q) (h : q ≤ r) :
    binary64_round q ≤ binary64_round r := by
  rcases eq_or_lt_of_le h0 with hq | hq
  · rw [← hq, binary64_round_zero]
    exact binary64_round_nonneg (h0.trans h)
  · have hr : 0 < r := hq.trans_le h
    rcases eq_or_lt_of_le (binary64_exponent_mono hq h) with he | he
    · unfold binary64_round binary64_ulp
      rw [he]
      have hu : (0 : ℚ) < 2 ^ (binary64_exponent r - 52) := by positivity
      have := round_half_even_mono (div_le_div_of_nonneg_right h hu.le)
      exact mul_le_mul_of_nonneg_right (by exact_mod_cast this) hu.le
    · have h1 := binary64_round_le_pow hq
      have h2 := pow_le_binary64_round hr (by
        have : -1022 ≤ binary64_exponent q := le_max_right _ _
        omega)
      have h3 : (2 : ℚ) ^ (binary64_exponent q + 1) ≤ 2 ^ binary64_exponent r :=
        zpow_le_zpow_right₀ (by norm_num) (by omega)
      linarith


theorem binary64_exponent_eq {q : ℚ} {e : ℤ} (he : -1022 ≤ e) (h1 : (2 : ℚ) ^ e ≤ q)
    (h2 : q < 2 ^ (e + 1)) : binary64_exponent q = e := by
  have hq : 0 < q := lt_of_lt_of_le (by positivity) h1
  have l1 : e ≤ Int.log 2 q := (Int.zpow_le_iff_le_log (b := 2) (by norm_num) hq).mp (by
    exact_mod_cast h1)
  have l2 : Int.log 2 q < e + 1 := (Int.lt_zpow_iff_log_lt (b := 2) (by norm_num) hq).mp (by
    exact_mod_cast h2)
  unfold binary64_exponent
  rw [abs_of_pos hq]
  have : Int.log 2 q = e := by omega
  rw [this]
  exact max_eq_left he

theorem round_half_even_intCast (n : ℤ) : round_half_even (n : ℚ) = n := by
  simp [round_half_even]

theorem round_to_double_zero : round_to_double 0 = 0 := by
  unfold round_to_double
  rw [binary64_round_zero]
  norm_num
  rfl

/-- Delivering an exact result as a double is monotone on the non-negative
rationals. -/
theorem round_to_double_mono {q r : ℚ} (h0 : 0 ≤ q) (h : q ≤ r) :
    round_to_double q ≤ round_to_double r := by
  have hm := binary64_round_mono h0 h
  have hn := binary64_round_nonneg h0
  have hp : (0 : ℚ) < 2 ^ 1024 := by positivity
  show Double.le _ _
  unfold round_to_double
  generalize (2 : ℚ) ^ 1024 = T at hp ⊢
  split_ifs <;> simp only [Double.le] <;> linarith

theorem closure_app_seconds_of_exact_zero (s : G1EvacuationRootClosures)
    (h : s.exact_seconds = 0) : s.closure_app_seconds = 0 := by
  cases s with
  | ofEvacuation c =>
    show Double.finite _ = Double.finite 0
    rw [show c._closures._buffered_oops._closure_app_seconds = 0 from h]
  | ofInitialMark m c =>
    show round_to_double _ = _
    rw [show c._strong._buffered_oops._closure_app_seconds +
      c._weak._buffered_oops._closure_app_seconds = 0 from h, round_to_double_zero]

/-- Between two sets with the same holders `closure_app_seconds()` is ordered
as the exact sums of the counters are, when these are non-negative. -/
theorem closure_app_seconds_le_of_exact_le (s t : G1EvacuationRootClosures)
    (hh : t.holders = s.holders) (h0 : 0 ≤ s.exact_seconds)
    (h : s.exact_seconds ≤ t.exact_seconds) :
    s.closure_app_seconds ≤ t.closure_app_seconds := by
  cases s with
  | ofEvacuation c =>
    cases t with
    | ofEvacuation d => exact h
    | ofInitialMark m d => simp [holders] at hh
  | ofInitialMark m c =>
    cases t with
    | ofEvacuation d => simp [holders] at hh
    | ofInitialMark n d => exact round_to_double_mono h0 h

theorem closure_app_seconds_nonneg_of_exact (s : G1EvacuationRootClosures)
    (h0 : 0 ≤ s.exact_seconds) : 0 ≤ s.closure_app_seconds := by
  cases s with
  | ofEvacuation c => exact h0
  | ofInitialMark m c =>
    have := round_to_double_mono (le_refl 0) h0
    rw [round_to_double_zero] at this
    exact this

/-! ### The doubles `0.1` and `0.2` -/

theorem double_0_1 : round_to_double (3602879701896397 / 2 ^ 55) =
    Double.finite (3602879701896397 / 2 ^ 55) := by
  have he : binary64_exponent (3602879701896397 / 2 ^ 55 : ℚ) = -4 :=
    binary64_exponent_eq (by norm_num) (by norm_num) (by norm_num)
  have hr : binary64_round (3602879701896397 / 2 ^ 55 : ℚ) = 3602879701896397 / 2 ^ 55 := by
    unfold binary64_round binary64_ulp
    rw [he]
    have : (3602879701896397 / 2 ^ 55 : ℚ) / 2 ^ ((-4 : ℤ) - 52) = ((7205759403792794 : ℤ) : ℚ) := by
      norm_num
    rw [this, round_half_even_intCast]
    norm_num
  unfold round_to_double
  rw [hr]
  norm_num

theorem double_0_1_plus_0_2 :
    round_to_double (3602879701896397 / 2 ^ 55 + 3602879701896397 / 2 ^ 54) =
      Double.finite (1351079888211149 / 2 ^ 52) := by
  have he : binary64_exponent (3602879701896397 / 2 ^ 55 + 3602879701896397 / 2 ^ 54 : ℚ) = -2 :=
    binary64_exponent_eq (by norm_num) (by norm_num) (by norm_num)
  have hr : binary64_round (3602879701896397 / 2 ^ 55 + 3602879701896397 / 2 ^ 54 : ℚ) =
      1351079888211149 / 2 ^ 52 := by
    unfold binary64_round binary64_ulp
    rw [he]
    have hx : (3602879701896397 / 2 ^ 55 + 3602879701896397 / 2 ^ 54 : ℚ) / 2 ^ ((-2 : ℤ) - 52) =
        10808639105689191 / 2 := by
      norm_num
    have hf : ⌊(10808639105689191 / 2 : ℚ)⌋ = 5404319552844595 := by
      rw [Int.floor_eq_iff]
      norm_num
    rw [hx]
    unfold round_half_even
    rw [hf]
    norm_num
  unfold round_to_double
  rw [hr]
  norm_num

theorem double_0_2 : round_to_double (3602879701896397 / 2 ^ 54) =
    Double.finite (3602879701896397 / 2 ^ 54) := by
  have he : binary64_exponent (3602879701896397 / 2 ^ 54 : ℚ) = -3 :=
    binary64_exponent_eq (by norm_num) (by norm_num) (by norm_num)
  have hr : binary64_round (3602879701896397 / 2 ^ 54 : ℚ) = 3602879701896397 / 2 ^ 54 := by
    unfold binary64_round binary64_ulp
    rw [he]
    have : (3602879701896397 / 2 ^ 54 : ℚ) / 2 ^ ((-3 : ℤ) - 52) =
        ((7205759403792794 : ℤ) : ℚ) := by
      norm_num
    rw [this, round_half_even_intCast]
    norm_num
  unfold round_to_double
  rw [hr]
  norm_num

/-- A sum that is itself a finite binary64 value is delivered unchanged. -/
theorem round_to_double_of_exact {x : ℚ} (hx : binary64_round x = x)
    (hlo : -2 ^ 1024 < x) (hhi : x < 2 ^ 1024) : round_to_double x = Double.finite x := by
  unfold round_to_double
  rw [hx]
  generalize (2 : ℚ) ^ 1024 = T at hlo hhi ⊢
  rw [if_neg (not_le.mpr hhi), if_neg (not_le.mpr hlo)]

/-! ### Elapsed time along operations -/

theorem foldlM_preserves {σ α β : Type} (f : σ → α → Option σ) (g : σ → β)
    (hf : ∀ s a t, f s a = some t → g t = g s) :
    ∀ (l : List α) (s t : σ), l.foldlM f s = some t → g t = g s := by
  intro l
  induction l with
  | nil =>
    intro s t h
    simp at h
    rw [h]
  | cons a l ih =>
    intro s t h
    rw [List.foldlM_cons] at h
    cases hfa : f s a with
    | none => rw [hfa] at h; simp at h
    | some u =>
      rw [hfa] at h
      exact (ih u t h).trans (hf s a u hfa)

theorem G1EvacuationClosures.do_oop_at_seconds (c t : G1EvacuationClosures) (q : Ptr) (p : Oop)
    (h : c.do_oop_at q p = some t) :
    (ofEvacuation t).exact_seconds = (ofEvacuation c).exact_seconds := by
  rcases q with _ | ⟨hd, m⟩
  · simp [G1EvacuationClosures.do_oop_at] at h
  · cases hd <;> cases m <;>
      simp [G1EvacuationClosures.do_oop_at, G1SharedClosures.do_oop] at h <;>
      subst h <;> rfl

theorem G1InitalMarkClosures.do_oop_at_seconds_im {MarkWeak : G1Mark}
    (c t : G1InitalMarkClosures MarkWeak) (q : Ptr) (p : Oop)
    (h : c.do_oop_at q p = some t) :
    (ofInitialMark MarkWeak t).exact_seconds = (ofInitialMark MarkWeak c).exact_seconds := by
  rcases q with _ | ⟨hd, m⟩
  · simp [G1InitalMarkClosures.do_oop_at] at h
  · cases hd <;> cases m <;>
      simp [G1InitalMarkClosures.do_oop_at, G1SharedClosures.do_oop] at h <;>
      subst h <;> rfl

theorem G1EvacuationClosures.done_seconds (c t : G1EvacuationClosures) (dt : ℚ)
    (h : c._closures_buffered_oops_done dt = some t) :
    (ofEvacuation t).exact_seconds = (ofEvacuation c).exact_seconds + dt := by
  unfold G1EvacuationClosures._closures_buffered_oops_done at h
  obtain ⟨u, hu, rfl⟩ := Option.map_eq_some'.mp h
  have := foldlM_preserves (fun s p => G1EvacuationClosures.do_oop_at s
    c._closures._buffered_oops._oc p) (fun s => (ofEvacuation s).exact_seconds)
    (fun s a t => G1EvacuationClosures.do_oop_at_seconds s t _ a) _ c u hu
  simp only [exact_seconds, BufferingOopClosure.batch_done] at this ⊢
  rw [this]

theorem G1InitalMarkClosures.strong_done_seconds {MarkWeak : G1Mark}
    (c t : G1InitalMarkClosures MarkWeak) (dt : ℚ)
    (h : c._strong_buffered_oops_done dt = some t) :
    (ofInitialMark MarkWeak t).exact_seconds =
      (ofInitialMark MarkWeak c).exact_seconds + dt := by
  unfold G1InitalMarkClosures._strong_buffered_oops_done at h
  obtain ⟨u, hu, rfl⟩ := Option.map_eq_some'.mp h
  have := foldlM_preserves (fun s p => G1InitalMarkClosures.do_oop_at s
    c._strong._buffered_oops._oc p) (fun s => (ofInitialMark MarkWeak s).exact_seconds)
    (fun s a t => G1InitalMarkClosures.do_oop_at_seconds_im s t _ a) _ c u hu
  simp only [exact_seconds, BufferingOopClosure.batch_done] at this ⊢
  rw [← this]
  ring

theorem G1InitalMarkClosures.weak_done_seconds {MarkWeak : G1Mark}
    (c t : G1InitalMarkClosures MarkWeak) (dt : ℚ)
    (h : c._weak_buffered_oops_done dt = some t) :
    (ofInitialMark MarkWeak t).exact_seconds =
      (ofInitialMark MarkWeak c).exact_seconds + dt := by
  unfold G1InitalMarkClosures._weak_buffered_oops_done at h
  obtain ⟨u, hu, rfl⟩ := Option.map_eq_some'.mp h
  have := foldlM_preserves (fun s p => G1InitalMarkClosures.do_oop_at s
    c._weak._buffered_oops._oc p) (fun s => (ofInitialMark MarkWeak s).exact_seconds)
    (fun s a t => G1InitalMarkClosures.do_oop_at_seconds_im s t _ a) _ c u hu
  simp only [exact_seconds, BufferingOopClosure.batch_done] at this ⊢
  rw [← this]
  ring

/-- One operation adds exactly its elapsed time to the exact sum of the
counters. -/
theorem step_seconds (s t : G1EvacuationRootClosures) (op : DriverOp)
    (h : step s op = some t) : t.exact_seconds = s.exact_seconds + op.elapsed := by
  cases op with
  | do_oop q p =>
    cases s with
    | ofEvacuation c =>
      obtain ⟨u, hu, rfl⟩ := Option.map_eq_some'.mp h
      simpa [DriverOp.elapsed] using G1EvacuationClosures.do_oop_at_seconds c u q p hu
    | ofInitialMark m c =>
      obtain ⟨u, hu, rfl⟩ := Option.map_eq_some'.mp h
      simpa [DriverOp.elapsed] using G1InitalMarkClosures.do_oop_at_seconds_im c u q p hu
  | forward hd dt =>
    cases s with
    | ofEvacuation c =>
      cases hd <;> simp only [step, buffered_oops_done] at h
      · obtain ⟨u, hu, rfl⟩ := Option.map_eq_some'.mp h
        exact G1EvacuationClosures.done_seconds c u dt hu
      · exact absurd h (by simp)
      · exact absurd h (by simp)
    | ofInitialMark m c =>
      cases hd <;> simp only [step, buffered_oops_done] at h
      · exact absurd h (by simp)
      · obtain ⟨u, hu, rfl⟩ := Option.map_eq_some'.mp h
        exact G1InitalMarkClosures.strong_done_seconds c u dt hu
      · obtain ⟨u, hu, rfl⟩ := Option.map_eq_some'.mp h
        exact G1InitalMarkClosures.weak_done_seconds c u dt hu
  | closure_app_seconds =>
    simp only [step, Option.some.injEq] at h
    subst h
    simp [DriverOp.elapsed]

/-- A sequence of operations adds the sum of their elapsed times. -/
theorem run_seconds (ops : List DriverOp) :
    ∀ s t : G1EvacuationRootClosures, run s ops = some t →
      t.exact_seconds = s.exact_seconds + (ops.map DriverOp.elapsed).sum := by
  induction ops with
  | nil =>
    intro s t h
    simp [run] at h
    simp [h]
  | cons op ops ih =>
    intro s t h
    simp only [run, List.foldlM_cons] at h
    cases hs : step s op with
    | none => rw [hs] at h; simp at h
    | some u =>
      rw [hs] at h
      have h1 := step_seconds s u op hs
      have h2 := ih u t h
      rw [h2, h1]
      simp [add_assoc]

/-- The call `flush()` adds the forwarding time of every owned wrapper, and
keeps the holders. -/
theorem flush_seconds (s t : G1EvacuationRootClosures) (clock : Holder → ℚ)
    (h : s.flush clock = some t) :
    t.exact_seconds = s.exact_seconds + (s.holders.map clock).sum ∧
      t.holders = s.holders := by
  cases s with
  | ofEvacuation c =>
    obtain ⟨u, hu, rfl⟩ := Option.map_eq_some'.mp h
    exact ⟨by simpa [holders] using G1EvacuationClosures.done_seconds c u _ hu, rfl⟩
  | ofInitialMark m c =>
    obtain ⟨u, hu, rfl⟩ := Option.map_eq_some'.mp h
    obtain ⟨v, hv, hvu⟩ := Option.bind_eq_some.mp hu
    have h1 := G1InitalMarkClosures.strong_done_seconds c v _ hv
    have h2 := G1InitalMarkClosures.weak_done_seconds v u _ hvu
    refine ⟨?_, rfl⟩
    simp only [holders, List.map_cons, List.map_nil, List.sum_cons, List.sum_nil, add_zero]
    rw [h2, h1]
    ring

theorem sum_elapsed_nonneg (ops : List DriverOp) (h : ∀ op ∈ ops, 0 ≤ op.elapsed) :
    0 ≤ (ops.map DriverOp.elapsed).sum :=
  List.sum_nonneg (by
    intro x hx
    obtain ⟨op, hop, rfl⟩ := List.mem_map.mp hx
    exact h op hop)

/-- Every set the factory returns starts with all elapsed-time counters at
zero. -/
theorem create_root_closures_counters_zero (class_unloading : Bool)
    (pss : G1ParScanThreadState) (g1h : G1CollectedHeap) :
    ∀ h ∈ (create_root_closures class_unloading pss g1h).holders,
      ((create_root_closures class_unloading pss g1h).buffered_oops_of h).map
        BufferingOopClosure.closure_app_seconds = some 0 := by
  obtain ⟨⟨d, y⟩⟩ := g1h
  cases d <;> cases class_unloading <;> intro h hh <;>
    simp [create_root_closures, holders] at hh <;>
    (try rcases hh with rfl | rfl) <;> rfl

/-- On a wired set a valid operation succeeds and leaves a wired set with the
same holders. -/
theorem step_succeeds (s : G1EvacuationRootClosures) (op : DriverOp) (hw : s.buffers_wired)
    (hv : op.valid s.holders) :
    ∃ t, step s op = some t ∧ t.buffers_wired ∧ t.holders = s.holders := by
  cases op with
  | closure_app_seconds => exact ⟨s, rfl, hw, rfl⟩
  | do_oop q p =>
    cases s with
    | ofEvacuation c =>
      simp only [DriverOp.valid, holders, List.mem_singleton, exists_eq_left] at hv
      rcases hv with rfl | rfl | rfl <;> refine ⟨_, rfl, ?_, ?_⟩ <;> first
        | rfl
        | simpa [buffers_wired, holders, buffered_oops_of, BufferingOopClosure.do_oop] using hw
    | ofInitialMark m c =>
      simp only [DriverOp.valid, holders, List.mem_cons, List.mem_singleton, List.not_mem_nil,
        or_false, exists_eq_or_imp, exists_eq_left] at hv
      rcases hv with (rfl | rfl | rfl) | (rfl | rfl | rfl) <;> refine ⟨_, rfl, ?_, ?_⟩ <;> first
        | rfl
        | simpa [buffers_wired, holders, buffered_oops_of, BufferingOopClosure.do_oop] using hw
  | forward h dt =>
    cases s with
    | ofEvacuation c =>
      simp only [DriverOp.valid, holders, List.mem_singleton] at hv
      subst hv
      have h1 : c._closures._buffered_oops._oc = some ⟨Holder._closures, Member._oops⟩ := by
        simpa [buffers_wired, holders, buffered_oops_of] using hw
      have hs : step (ofEvacuation c) (DriverOp.forward Holder._closures dt) =
          some (ofEvacuation
            { _closures :=
                { c._closures.receive c._closures._buffered_oops._buffer with
                  _buffered_oops := c._closures._buffered_oops.batch_done dt } }) := by
        simp only [step, buffered_oops_done, G1EvacuationClosures._closures_buffered_oops_done,
          G1EvacuationClosures.process_buffer_wired _ h1, Option.map_some']
        rfl
      refine ⟨_, hs, ?_, rfl⟩
      simpa [buffers_wired, holders, buffered_oops_of, BufferingOopClosure.batch_done,
        G1SharedClosures.receive] using h1
    | ofInitialMark m c =>
      have h1 : c._strong._buffered_oops._oc = some ⟨Holder._strong, Member._oops⟩ := by
        have := hw Holder._strong (by simp [holders])
        simpa [buffered_oops_of] using this
      have h2 : c._weak._buffered_oops._oc = some ⟨Holder._weak, Member._oops⟩ := by
        have := hw Holder._weak (by simp [holders])
        simpa [buffered_oops_of] using this
      simp only [DriverOp.valid, holders, List.mem_cons, List.mem_singleton, List.not_mem_nil,
        or_false] at hv
      rcases hv with rfl | rfl
      · have hs : step (ofInitialMark m c) (DriverOp.forward Holder._strong dt) =
            some (ofInitialMark m
              { c with _strong :=
                  { c._strong.receive c._strong._buffered_oops._buffer with
                    _buffered_oops := c._strong._buffered_oops.batch_done dt } }) := by
          simp only [step, buffered_oops_done, G1InitalMarkClosures._strong_buffered_oops_done,
            G1InitalMarkClosures.process_buffer_wired_strong _ h1, Option.map_some']
          rfl
        refine ⟨_, hs, ?_, rfl⟩
        simp [buffers_wired, holders, buffered_oops_of, BufferingOopClosure.batch_done,
          G1SharedClosures.receive, h1, h2]
      · have hs : step (ofInitialMark m c) (DriverOp.forward Holder._weak dt) =
            some (ofInitialMark m
              { c with _weak :=
                  { c._weak.receive c._weak._buffered_oops._buffer with
                    _buffered_oops := c._weak._buffered_oops.batch_done dt } }) := by
          simp only [step, buffered_oops_done, G1InitalMarkClosures._weak_buffered_oops_done,
            G1InitalMarkClosures.process_buffer_wired_weak _ h2, Option.map_some']
          rfl
        refine ⟨_, hs, ?_, rfl⟩
        simp [buffers_wired, holders, buffered_oops_of, BufferingOopClosure.batch_done,
          G1SharedClosures.receive, h1, h2]

/-- On a wired set every sequence of valid operations runs to a wired set with
the same holders. -/
theorem run_succeeds (ops : List DriverOp) :
    ∀ s : G1EvacuationRootClosures, s.buffers_wired → (∀ op ∈ ops, op.valid s.holders) →
      ∃ t, run s ops = some t ∧ t.buffers_wired ∧ t.holders = s.holders := by
  induction ops with
  | nil => exact fun s hw _ => ⟨s, rfl, hw, rfl⟩
  | cons op ops ih =>
    intro s hw hv
    obtain ⟨u, hu, huw, huh⟩ := step_succeeds s op hw (hv op (List.mem_cons_self _ _))
    obtain ⟨t, ht, htw, hth⟩ := ih u huw fun o ho => huh ▸ hv o (List.mem_cons_of_mem _ ho)
    refine ⟨t, ?_, htw, hth.trans huh⟩
    simp only [run, List.foldlM_cons, hu] at ht ⊢
    exact ht

/-- On a wired set `flush()` returns. -/
theorem flush_succeeds (s : G1EvacuationRootClosures) (clock : Holder → ℚ)
    (hw : s.buffers_wired) : ∃ t, s.flush clock = some t := by
  cases s with
  | ofEvacuation c =>
    have h1 : c._closures._buffered_oops._oc = some ⟨Holder._closures, Member._oops⟩ := by
      simpa [buffers_wired, holders, buffered_oops_of] using hw
    exact ⟨_, by rw [flush, G1EvacuationClosures.evacuation_flush_wired c clock h1]; rfl⟩
  | ofInitialMark m c =>
    have h1 : c._strong._buffered_oops._oc = some ⟨Holder._strong, Member._oops⟩ := by
      have := hw Holder._strong (by simp [holders])
      simpa [buffered_oops_of] using this
    have h2 : c._weak._buffered_oops._oc = some ⟨Holder._weak, Member._oops⟩ := by
      have := hw Holder._weak (by simp [holders])
      simpa [buffered_oops_of] using this
    exact ⟨_, by rw [flush, G1InitalMarkClosures.initial_mark_flush_wired c clock h1 h2]; rfl⟩

/-- C11: `closure_app_seconds()` is non-negative and non-decreasing until
`flush()`, and stable afterwards.  Start from a set wired as the constructors
wire it, whose owned wrappers all have an elapsed-time counter of zero; let
any operations of a driver run on it, whose forwarding calls each take a
non-negative time; then `flush()` it, each forwarding call again taking a
non-negative time.  All of this returns; the time read is zero at the start,
non-negative at every later point, at any point at most what it is at any
later point, `flush()` itself does not decrease it, and after `flush()` any
number of repeated reads leave the set, hence the value read, as it is. -/
theorem closure_app_seconds_monotone_then_stable
    (s₀ : G1EvacuationRootClosures) (ops₁ ops₂ : List DriverOp) (clock : Holder → ℚ)
    (hwired : s₀.buffers_wired)
    (hzero : ∀ h ∈ s₀.holders,
      (s₀.buffered_oops_of h).map BufferingOopClosure.closure_app_seconds = some 0)
    (hvalid : ∀ op ∈ ops₁ ++ ops₂, op.valid s₀.holders)
    (hops : ∀ op ∈ ops₁ ++ ops₂, 0 ≤ op.elapsed)
    (hclock : ∀ h, 0 ≤ clock h) :
    ∃ s₁ s₂ t, run s₀ ops₁ = some s₁ ∧ run s₁ ops₂ = some s₂ ∧ s₂.flush clock = some t ∧
      s₀.closure_app_seconds = 0 ∧
      0 ≤ s₁.closure_app_seconds ∧
      s₁.closure_app_seconds ≤ s₂.closure_app_seconds ∧
      s₂.closure_app_seconds ≤ t.closure_app_seconds ∧
      0 ≤ t.closure_app_seconds ∧
      ∀ n : Nat,
        run t (List.replicate n DriverOp.closure_app_seconds) = some t ∧
          (run t (List.replicate n DriverOp.closure_app_seconds)).map closure_app_seconds =
            some t.closure_app_seconds := by
  obtain ⟨s₁, h₁, w₁, hh₁⟩ := run_succeeds ops₁ s₀ hwired
    fun op hop => hvalid op (List.mem_append_left _ hop)
  obtain ⟨s₂, h₂, w₂, hh₂⟩ := run_succeeds ops₂ s₁ w₁
    fun op hop => hh₁ ▸ hvalid op (List.mem_append_right _ hop)
  obtain ⟨t, hf⟩ := flush_succeeds s₂ clock w₂
  have h0 : s₀.exact_seconds = 0 := by
    cases s₀ with
    | ofEvacuation c =>
      have := hzero Holder._closures (by simp [holders])
      simp only [buffered_oops_of, Option.map_some', Option.some.injEq] at this
      exact Double.finite.inj this
    | ofInitialMark m c =>
      have a := hzero Holder._strong (by simp [holders])
      have b := hzero Holder._weak (by simp [holders])
      simp only [buffered_oops_of, Option.map_some', Option.some.injEq] at a b
      have a' : c._strong._buffered_oops._closure_app_seconds = 0 := Double.finite.inj a
      have b' : c._weak._buffered_oops._closure_app_seconds = 0 := Double.finite.inj b
      simp [exact_seconds, a', b']
  have e₁ := run_seconds ops₁ s₀ s₁ h₁
  have e₂ := run_seconds ops₂ s₁ s₂ h₂
  obtain ⟨e₃, hh₃⟩ := flush_seconds s₂ t clock hf
  have n₁ : 0 ≤ (ops₁.map DriverOp.elapsed).sum :=
    sum_elapsed_nonneg ops₁ fun op hop => hops op (List.mem_append_left _ hop)
  have n₂ : 0 ≤ (ops₂.map DriverOp.elapsed).sum :=
    sum_elapsed_nonneg ops₂ fun op hop => hops op (List.mem_append_right _ hop)
  have n₃ : 0 ≤ (s₂.holders.map clock).sum :=
    List.sum_nonneg (by
      intro x hx
      obtain ⟨h, _, rfl⟩ := List.mem_map.mp hx
      exact hclock h)
  have reads : ∀ n : Nat, run t (List.replicate n DriverOp.closure_app_seconds) = some t := by
    intro n
    induction n with
    | zero => rfl
    | succ n ih =>
      rw [List.replicate_succ]
      simpa [run, step] using ih
  have p₁ : 0 ≤ s₁.exact_seconds := by linarith
  have p₂ : 0 ≤ s₂.exact_seconds := by linarith
  have pt : 0 ≤ t.exact_seconds := by linarith
  refine ⟨s₁, s₂, t, h₁, h₂, hf, closure_app_seconds_of_exact_zero s₀ h0,
    closure_app_seconds_nonneg_of_exact s₁ p₁,
    closure_app_seconds_le_of_exact_le s₁ s₂ hh₂ p₁ (by linarith),
    closure_app_seconds_le_of_exact_le s₂ t hh₃ p₂ (by linarith),
    closure_app_seconds_nonneg_of_exact t pt, fun n => ⟨reads n, ?_⟩⟩
  rw [reads n]
  rfl

/-- C11 at a concrete input: on the sample factory set one oop is buffered and
forwarded in one second, another is buffered and the time is read, then
`flush()` runs with one second for each wrapper. -/
theorem closure_app_seconds_monotone_then_stable_witness :
    sample_factory_set.buffers_wired ∧
      (∀ op ∈ sample_ops_early ++ sample_ops_late, op.valid sample_factory_set.holders) ∧
      (∀ op ∈ sample_ops_early ++ sample_ops_late, 0 ≤ op.elapsed) ∧
      ∃ s₁ s₂ t, run sample_factory_set sample_ops_early = some s₁ ∧
        run s₁ sample_ops_late = some s₂ ∧ s₂.flush sample_unit_clock = some t ∧
        sample_factory_set.closure_app_seconds = 0 ∧
        0 ≤ s₁.closure_app_seconds ∧
        s₁.closure_app_seconds ≤ s₂.closure_app_seconds ∧
        s₂.closure_app_seconds ≤ t.closure_app_seconds ∧
        0 ≤ t.closure_app_seconds ∧
        ∀ n : Nat,
          run t (List.replicate n DriverOp.closure_app_seconds) = some t ∧
            (run t (List.replicate n DriverOp.closure_app_seconds)).map closure_app_seconds =
              some t.closure_app_seconds :=
  ⟨by decide, by decide, by decide,
    closure_app_seconds_monotone_then_stable sample_factory_set sample_ops_early
      sample_ops_late sample_unit_clock (by decide) (by decide) (by decide) (by decide)
      (fun _ => by simp [sample_unit_clock])⟩

/-- C10, as the code has it: `closure_app_seconds()` of an initial-mark set is
the `double` sum of the elapsed times of the strong and of the weak buffering
wrapper, which is their exact sum delivered as a double: rounded to the
nearest binary64 value, ties to even, overflowing to an infinity; it is the
exact sum whenever that sum is itself a finite binary64 value.  Of an
evacuation set it is the elapsed time of the single buffering wrapper. -/
theorem closure_app_seconds_rounds_sum :
    (∀ (MarkWeak : G1Mark) (c : G1InitalMarkClosures MarkWeak),
        (ofInitialMark MarkWeak c).closure_app_seconds =
            c._strong._buffered_oops.closure_app_seconds +
              c._weak._buffered_oops.closure_app_seconds ∧
          (ofInitialMark MarkWeak c).closure_app_seconds =
            round_to_double (c._strong._buffered_oops._closure_app_seconds +
              c._weak._buffered_oops._closure_app_seconds) ∧
          (binary64_round (c._strong._buffered_oops._closure_app_seconds +
                c._weak._buffered_oops._closure_app_seconds) =
              c._strong._buffered_oops._closure_app_seconds +
                c._weak._buffered_oops._closure_app_seconds →
            -2 ^ 1024 < c._strong._buffered_oops._closure_app_seconds +
                c._weak._buffered_oops._closure_app_seconds →
            c._strong._buffered_oops._closure_app_seconds +
                c._weak._buffered_oops._closure_app_seconds < 2 ^ 1024 →
            (ofInitialMark MarkWeak c).closure_app_seconds =
              Double.finite (c._strong._buffered_oops._closure_app_seconds +
                c._weak._buffered_oops._closure_app_seconds))) ∧
      ∀ c : G1EvacuationClosures,
        (ofEvacuation c).closure_app_seconds =
            c._closures._buffered_oops.closure_app_seconds ∧
          (ofEvacuation c).closure_app_seconds =
            Double.finite c._closures._buffered_oops._closure_app_seconds :=
  ⟨fun _ _ => ⟨rfl, rfl, fun hx hlo hhi => round_to_double_of_exact hx hlo hhi⟩,
    fun _ => ⟨rfl, rfl⟩⟩

/-- C10 as stated fails: in the sample set the strong wrapper has accumulated
the double `0.1` and the weak wrapper the double `0.2`, both binary64 values;
`closure_app_seconds()` returns the double `1351079888211149 / 2 ^ 52`, which
is not the exact sum `10808639105689191 / 2 ^ 55` of the two elapsed times. -/
theorem closure_app_seconds_exact_sum_counterexample :
    sample_tenths_set._strong._buffered_oops.closure_app_seconds =
        round_to_double (3602879701896397 / 2 ^ 55) ∧
      sample_tenths_set._weak._buffered_oops.closure_app_seconds =
        round_to_double (3602879701896397 / 2 ^ 54) ∧
      sample_tenths_set._strong._buffered_oops._closure_app_seconds +
          sample_tenths_set._weak._buffered_oops._closure_app_seconds =
        10808639105689191 / 2 ^ 55 ∧
      (ofInitialMark _ sample_tenths_set).closure_app_seconds =
        Double.finite (1351079888211149 / 2 ^ 52) ∧
      (ofInitialMark _ sample_tenths_set).closure_app_seconds ≠
        Double.finite (sample_tenths_set._strong._buffered_oops._closure_app_seconds +
          sample_tenths_set._weak._buffered_oops._closure_app_seconds) := by
  have hsum : sample_tenths_set._strong._buffered_oops._closure_app_seconds +
      sample_tenths_set._weak._buffered_oops._closure_app_seconds =
        10808639105689191 / 2 ^ 55 := by
    show (3602879701896397 / 2 ^ 55 + 3602879701896397 / 2 ^ 54 : ℚ) = _
    norm_num
  have hcas : (ofInitialMark _ sample_tenths_set).closure_app_seconds =
      Double.finite (1351079888211149 / 2 ^ 52) := by
    show round_to_double (3602879701896397 / 2 ^ 55 + 3602879701896397 / 2 ^ 54) = _
    exact double_0_1_plus_0_2
  refine ⟨?_, ?_, hsum, hcas, ?_⟩
  · rw [double_0_1]
    rfl
  · rw [double_0_2]
    rfl
  · rw [hcas, hsum]
    intro h
    have := Double.finite.inj h
    norm_num at this

end G1RootClosures
